import Mathlib

/-!
# Food-Share: the donation / request lifecycle of `server.js`

A shallow embedding of the Express handlers of `src/server.js` over an explicit
store (the three Mongoose collections), followed by the properties of the
lifecycle that the specification states.

Conventions of the embedding:

* an `ObjectId` is a natural number; a fresh one is drawn from `Store.nextId`;
* a collection is the list of its documents in insertion order;
* `Model.findById` is `List.find?` on the `_id`; a write that targets one
  document (`findByIdAndUpdate`, `findOneAndDelete`, `doc.save()` of a loaded
  document) acts on the first document that matches;
* `doc.save()` runs the validators of the schema the document belongs to
  (`required`, `enum`); a failed validation throws, and every handler turns a
  throw into status 500 without writing;
* `findByIdAndUpdate` is called without `runValidators`, so it does not run them;
* a JSON body is well-typed: every field a handler reads is present and is a
  string (an `ObjectId` for an id); the empty string is a string;
* `Date.now` is the argument `now` of the handlers that create a document.
-/

namespace FoodShare

/-! ## Data model (`userSchema`, `donationSchema`, `requestSchema`) -/

abbrev ObjectId := Nat

/-- A document of the `User` collection (`userSchema`, server.js 37-45). -/
structure User where
  id : ObjectId
  name : String
  email : String
  password : String
  phone : String
  address : String
  userType : String
  createdAt : Nat
deriving DecidableEq

/-- A document of the `Donation` collection (`donationSchema`, server.js 50-62). -/
structure Donation where
  id : ObjectId
  title : String
  description : String
  foodType : String
  quantity : String
  expiryDate : Nat
  location : String
  contactInfo : String
  donorId : ObjectId
  donorName : String
  status : String
  createdAt : Nat
deriving DecidableEq

/-- A document of the `Request` collection (`requestSchema`, server.js 67-78). -/
structure Request where
  id : ObjectId
  donationId : ObjectId
  donationTitle : String
  recipientId : ObjectId
  recipientName : String
  recipientEmail : String
  recipientPhone : String
  reason : String
  status : String
  donorResponse : Option String
  createdAt : Nat
deriving DecidableEq

/-- The database: the three collections and the source of fresh `_id`s. -/
structure Store where
  users : List User
  donations : List Donation
  requests : List Request
  nextId : ObjectId
deriving DecidableEq

/-- The decoded token payload that `authenticateToken` puts in `req.user`. -/
structure Identity where
  userId : ObjectId
  email : String
deriving DecidableEq

/-- What a handler sends: the HTTP status, the `message` of the JSON body and,
on success, the document or list the body carries. -/
structure Response (α : Type) where
  status : Nat
  message : String
  payload : Option α
deriving DecidableEq

/-- The `catch` branch of every handler: `res.status(500).json(...)`. -/
def serverError {α : Type} : Response α := ⟨500, "Server error", none⟩

/-! ## Schema validators -/

/-- The `enum` of `userSchema.userType`. -/
def userTypeEnum : List String := ["donor", "recipient"]

/-- The `enum` of `donationSchema.status`. -/
def donationStatusEnum : List String := ["available", "claimed", "completed"]

/-- The `enum` of `requestSchema.status`. -/
def requestStatusEnum : List String := ["pending", "accepted", "rejected"]

/-- The `required: true` validator of a string path: present and non-empty. -/
def requiredString (x : String) : Bool := x != ""

/-- The `required` validators of `userSchema`. -/
def userRequired (u : User) : Bool :=
  requiredString u.name && requiredString u.email && requiredString u.password &&
  requiredString u.phone && requiredString u.address && requiredString u.userType

/-- Validation of a `User` document on `save()`. -/
def validateUser (u : User) : Bool :=
  userRequired u && userTypeEnum.contains u.userType

/-- The `required` validators of `donationSchema` (`status` is not required: it
has a default). -/
def donationRequired (d : Donation) : Bool :=
  requiredString d.title && requiredString d.description && requiredString d.foodType &&
  requiredString d.quantity && requiredString d.location && requiredString d.contactInfo &&
  requiredString d.donorName

/-- Validation of a `Donation` document on `save()`. -/
def validateDonation (d : Donation) : Bool :=
  donationRequired d && donationStatusEnum.contains d.status

/-- The `required` validators of `requestSchema`. -/
def requestRequired (r : Request) : Bool :=
  requiredString r.donationTitle && requiredString r.recipientName &&
  requiredString r.recipientEmail && requiredString r.recipientPhone &&
  requiredString r.reason

/-- Validation of a `Request` document on `save()`. -/
def validateRequest (r : Request) : Bool :=
  requestRequired r && requestStatusEnum.contains r.status

/-! ## Collection primitives -/

/-- Apply `f` to the first element that satisfies `p`: the effect on a collection
of an update that targets one document. -/
def updateFirst {α : Type} (p : α → Bool) (f : α → α) : List α → List α
  | [] => []
  | a :: l => if p a then f a :: l else a :: updateFirst p f l

/-- Implements `User.findById`. -/
def findUser (s : Store) (id : ObjectId) : Option User :=
  s.users.find? (fun u => u.id == id)

/-- Implements `Donation.findById`. -/
def findDonation (s : Store) (id : ObjectId) : Option Donation :=
  s.donations.find? (fun d => d.id == id)

/-- Implements `Request.findById`. -/
def findRequest (s : Store) (id : ObjectId) : Option Request :=
  s.requests.find? (fun r => r.id == id)

/-- The empty database. -/
def Store.empty : Store := ⟨[], [], [], 0⟩

/-- The order of `.sort({ createdAt: -1 })`: newest first. -/
def newestFirst {α : Type} (createdAt : α → Nat) (l : List α) : List α :=
  l.insertionSort (fun a b => createdAt b ≤ createdAt a)

/-! ## Handlers -/

/-- The fields `POST /api/donations` reads from the body. `expiryDate` is the
value of `new Date(expiryDate)`, `none` for an invalid date; `status` stands for
whatever else the body carries, which the handler never reads. -/
structure DonationBody where
  title : String
  description : String
  foodType : String
  quantity : String
  expiryDate : Option Nat
  location : String
  contactInfo : String
  status : Option String
deriving DecidableEq

/-- The document `new Donation({...})` of `POST /api/donations` (server.js
190-200): the fields of the body, the owner, and the defaults of the schema. -/
def newDonation (id now : Nat) (user : User) (b : DonationBody) (expiry : Nat) : Donation :=
  { id := id, title := b.title, description := b.description, foodType := b.foodType,
    quantity := b.quantity, expiryDate := expiry, location := b.location,
    contactInfo := b.contactInfo, donorId := user.id, donorName := user.name,
    status := "available", createdAt := now }

/-- The insertion of a new donation document. -/
def insertDonation (s : Store) (d : Donation) : Store :=
  { s with donations := s.donations ++ [d], nextId := s.nextId + 1 }

/-- Handler `POST /api/donations` (server.js 181-207), the spec's `createDonation`. -/
def createDonation (s : Store) (now : Nat) (caller : Identity) (b : DonationBody) :
    Store × Response Donation :=
  match findUser s caller.userId with
  | none => (s, ⟨404, "User not found", none⟩)
  | some user =>
    match b.expiryDate with
    | none => (s, serverError)
    | some expiry =>
      let donation := newDonation s.nextId now user b expiry
      if validateDonation donation then
        (insertDonation s donation, ⟨201, "Donation created successfully", some donation⟩)
      else (s, serverError)

/-- Implements `isMongoConnected` (server.js 29-31) on `mongoose.connection.readyState`. -/
def isMongoConnected (readyState : Nat) : Bool := readyState == 1

/-- The projection `populate('donorId', 'name email')` keeps of a user. -/
structure DonorRef where
  id : ObjectId
  name : String
  email : String
deriving DecidableEq

/-- A donation whose `donorId` has been populated (`none`: no such user). -/
structure PopulatedDonation where
  doc : Donation
  donor : Option DonorRef
deriving DecidableEq

/-- Implements `.populate('donorId', 'name email')` on one donation. -/
def populate (s : Store) (d : Donation) : PopulatedDonation :=
  ⟨d, (findUser s d.donorId).map (fun u => ⟨u.id, u.name, u.email⟩)⟩

/-- Handler `GET /api/donations` (server.js 210-225), the spec's
`listAvailableDonations`: the JSON array it answers with. -/
def listAvailableDonations (readyState : Nat) (s : Store) : List PopulatedDonation :=
  if !isMongoConnected readyState then []
  else
    (newestFirst Donation.createdAt
      (s.donations.filter (fun d => d.status == "available"))).map (populate s)

/-- Handler `GET /api/my-donations` (server.js 228-236), the spec's `listOwnDonations`. -/
def listOwnDonations (s : Store) (caller : Identity) : List Donation :=
  newestFirst Donation.createdAt (s.donations.filter (fun d => d.donorId == caller.userId))

/-- The write of one donation document under its `_id` (`findByIdAndUpdate`, or
`donation.save()` of a loaded document). -/
def writeDonation (s : Store) (d : Donation) : Store :=
  { s with donations := updateFirst (fun x => x.id == d.id) (fun _ => d) s.donations }

/-- The write of one request document under its `_id` (`request.save()` of a
loaded document). -/
def writeRequest (s : Store) (r : Request) : Store :=
  { s with requests := updateFirst (fun x => x.id == r.id) (fun _ => r) s.requests }

/-- The update `{ status }` applied to a donation document. -/
def Donation.withStatus (d : Donation) (status : String) : Donation :=
  { d with status := status }

/-- Handler `PATCH /api/donations/:id` (server.js 239-256), the spec's `setStatus`:
`findByIdAndUpdate(id, { status }, { new: true })`, which runs no validator.
The caller is not consulted. -/
def setStatus (s : Store) (_caller : Identity) (id : ObjectId) (status : String) :
    Store × Response Donation :=
  match findDonation s id with
  | none => (s, ⟨404, "Donation not found", none⟩)
  | some d =>
    (writeDonation s (d.withStatus status),
      ⟨200, "Donation updated successfully", some (d.withStatus status)⟩)

/-- Handler `DELETE /api/donations/:id` (server.js 259-274), the spec's `remove`:
`findOneAndDelete({ _id, donorId })`. -/
def remove (s : Store) (caller : Identity) (id : ObjectId) : Store × Response Unit :=
  match s.donations.find? (fun d => d.id == id && d.donorId == caller.userId) with
  | none => (s, ⟨404, "Donation not found", none⟩)
  | some _ =>
    ({ s with donations :=
        s.donations.eraseP (fun d => d.id == id && d.donorId == caller.userId) },
      ⟨200, "Donation deleted successfully", none⟩)

/-- The document `new Request({...})` of `POST /api/requests` (server.js
300-308), with the defaults of the schema. -/
def newRequest (id now : Nat) (user : User) (donation : Donation) (reason : String) : Request :=
  { id := id, donationId := donation.id, donationTitle := donation.title,
    recipientId := user.id, recipientName := user.name, recipientEmail := user.email,
    recipientPhone := user.phone, reason := reason, status := "pending",
    donorResponse := none, createdAt := now }

/-- The insertion of a new request document. -/
def insertRequest (s : Store) (r : Request) : Store :=
  { s with requests := s.requests ++ [r], nextId := s.nextId + 1 }

/-- Handler `POST /api/requests` (server.js 277-315), the spec's `createRequest`. -/
def createRequest (s : Store) (now : Nat) (caller : Identity) (donationId : ObjectId)
    (reason : String) : Store × Response Request :=
  match findUser s caller.userId with
  | none => (s, ⟨404, "User not found", none⟩)
  | some user =>
    if user.userType != "recipient" then
      (s, ⟨403, "Only recipients can request food", none⟩)
    else
      match findDonation s donationId with
      | none => (s, ⟨404, "Donation not found", none⟩)
      | some donation =>
        if donation.status != "available" then
          (s, ⟨400, "This donation is no longer available", none⟩)
        else
          let request := newRequest s.nextId now user donation reason
          if validateRequest request then
            (insertRequest s request, ⟨201, "Food request sent successfully", some request⟩)
          else (s, serverError)

/-- Handler `GET /api/my-requests` (server.js 318-342), the spec's `listOwnRequests`. -/
def listOwnRequests (s : Store) (caller : Identity) : Response (List Request) :=
  match findUser s caller.userId with
  | none => ⟨404, "User not found", none⟩
  | some user =>
    if user.userType == "donor" then
      let donations := s.donations.filter (fun d => d.donorId == user.id)
      let donationIds := donations.map (fun d => d.id)
      ⟨200, "", some (newestFirst Request.createdAt
        (s.requests.filter (fun r => donationIds.contains r.donationId)))⟩
    else
      ⟨200, "", some (newestFirst Request.createdAt
        (s.requests.filter (fun r => r.recipientId == user.id)))⟩

/-- Whether each of the two writes of `PATCH /api/requests/:id` reaches the
database (`false`: the driver throws). -/
structure WriteOutcomes where
  requestSave : Bool
  donationSave : Bool
deriving DecidableEq

/-- JavaScript truthiness of the optional `donorResponse` of the body. -/
def truthy : Option String → Bool
  | none => false
  | some x => x != ""

/-- The assignments `request.status = status` and, when `donorResponse` is truthy,
`request.donorResponse = donorResponse` (server.js 360-363). -/
def Request.assign (request : Request) (status : String) (donorResponse : Option String) :
    Request :=
  { request with
    status := status
    donorResponse := if truthy donorResponse then donorResponse else request.donorResponse }

/-- Handler `PATCH /api/requests/:id` (server.js 345-377), the spec's `respond`,
under the write outcomes `io`. -/
def respondWith (io : WriteOutcomes) (s : Store) (caller : Identity) (id : ObjectId)
    (status : String) (donorResponse : Option String) : Store × Response Request :=
  match findRequest s id with
  | none => (s, ⟨404, "Request not found", none⟩)
  | some request =>
    match findDonation s request.donationId with
    | none => (s, ⟨403, "Not authorized to update this request", none⟩)
    | some donation =>
      if donation.donorId != caller.userId then
        (s, ⟨403, "Not authorized to update this request", none⟩)
      else
        let request1 := request.assign status donorResponse
        if !(validateRequest request1 && io.requestSave) then (s, serverError)
        else
          let s1 := writeRequest s request1
          if status == "accepted" then
            let donation1 := donation.withStatus "claimed"
            if !(validateDonation donation1 && io.donationSave) then (s1, serverError)
            else (writeDonation s1 donation1, ⟨200, "Request updated successfully", some request1⟩)
          else (s1, ⟨200, "Request updated successfully", some request1⟩)

/-- Handler `PATCH /api/requests/:id` when both writes reach the database. -/
def respond (s : Store) (caller : Identity) (id : ObjectId) (status : String)
    (donorResponse : Option String) : Store × Response Request :=
  respondWith ⟨true, true⟩ s caller id status donorResponse

/-- The credential libraries `bcryptjs` and `jsonwebtoken`, which are not part of
the repository, taken as parameters: `hash password saltRounds`,
`compare password stored`, `sign payload issuedAt` (with the fixed `24h` expiry)
and `verify token now`. -/
structure Crypto where
  hash : String → Nat → String
  compare : String → String → Bool
  sign : Identity → Nat → String
  verify : String → Nat → Option Identity

/-- The body of `POST /api/register`. -/
structure RegisterBody where
  name : String
  email : String
  password : String
  phone : String
  address : String
  userType : String
deriving DecidableEq

/-- The `user` object of the register and login responses. -/
structure PublicUser where
  id : ObjectId
  name : String
  email : String
  userType : String
deriving DecidableEq

/-- The payload of the register and login responses. -/
structure AuthPayload where
  token : String
  user : PublicUser
deriving DecidableEq

/-- The insertion of a new user document. -/
def insertUser (s : Store) (u : User) : Store :=
  { s with users := s.users ++ [u], nextId := s.nextId + 1 }

/-- Handler `POST /api/register` (server.js 101-143), the spec's `register`. -/
def register (c : Crypto) (s : Store) (now : Nat) (b : RegisterBody) :
    Store × Response AuthPayload :=
  match s.users.find? (fun u => u.email == b.email) with
  | some _ => (s, ⟨400, "User already exists", none⟩)
  | none =>
    let saltRounds := 10
    let hashedPassword := c.hash b.password saltRounds
    let user : User :=
      { id := s.nextId, name := b.name, email := b.email, password := hashedPassword,
        phone := b.phone, address := b.address, userType := b.userType, createdAt := now }
    if validateUser user then
      (insertUser s user,
        ⟨201, "User registered successfully",
          some ⟨c.sign ⟨user.id, user.email⟩ now, ⟨user.id, user.name, user.email, user.userType⟩⟩⟩)
    else (s, serverError)

/-- Handler `POST /api/login` (server.js 146-178), the spec's `login`. -/
def login (c : Crypto) (s : Store) (now : Nat) (email password : String) :
    Response AuthPayload :=
  match s.users.find? (fun u => u.email == email) with
  | none => ⟨400, "Invalid credentials", none⟩
  | some user =>
    if !c.compare password user.password then ⟨400, "Invalid credentials", none⟩
    else
      ⟨200, "Login successful",
        some ⟨c.sign ⟨user.id, user.email⟩ now, ⟨user.id, user.name, user.email, user.userType⟩⟩⟩

/-! ## The API as a transition system -/

/-- One call of the API: the ten routes of `server.js` with their inputs. The
calls of the bearer-protected routes carry the identity `authenticateToken` decoded. -/
inductive Op where
  | register (now : Nat) (b : RegisterBody)
  | login (now : Nat) (email password : String)
  | createDonation (now : Nat) (caller : Identity) (b : DonationBody)
  | listAvailableDonations (readyState : Nat)
  | listOwnDonations (caller : Identity)
  | setStatus (caller : Identity) (id : ObjectId) (status : String)
  | remove (caller : Identity) (id : ObjectId)
  | createRequest (now : Nat) (caller : Identity) (donationId : ObjectId) (reason : String)
  | listOwnRequests (caller : Identity)
  | respond (io : WriteOutcomes) (caller : Identity) (id : ObjectId) (status : String)
      (donorResponse : Option String)
deriving DecidableEq

/-- The database after one call. The four read-only routes write nothing. -/
def step (c : Crypto) (s : Store) : Op → Store
  | .register now b => (register c s now b).1
  | .login _ _ _ => s
  | .createDonation now caller b => (createDonation s now caller b).1
  | .listAvailableDonations _ => s
  | .listOwnDonations _ => s
  | .setStatus caller id status => (setStatus s caller id status).1
  | .remove caller id => (remove s caller id).1
  | .createRequest now caller donationId reason =>
      (createRequest s now caller donationId reason).1
  | .listOwnRequests _ => s
  | .respond io caller id status donorResponse =>
      (respondWith io s caller id status donorResponse).1

/-- The database after a sequence of calls. -/
def run (c : Crypto) (s : Store) (ops : List Op) : Store :=
  ops.foldl (step c) s

/-- The states the server can be in: those a sequence of calls leads to from the
empty database. -/
inductive Reachable (c : Crypto) : Store → Prop
  | init : Reachable c Store.empty
  | step {s : Store} (op : Op) : Reachable c s → Reachable c (step c s op)

/-- The caller an authenticated call was made by, `none` for the three public routes. -/
def Op.caller : Op → Option Identity
  | .register _ _ => none
  | .login _ _ _ => none
  | .createDonation _ caller _ => some caller
  | .listAvailableDonations _ => none
  | .listOwnDonations caller => some caller
  | .setStatus caller _ _ => some caller
  | .remove caller _ => some caller
  | .createRequest _ caller _ _ => some caller
  | .listOwnRequests caller => some caller
  | .respond _ caller _ _ _ => some caller

/-- Well-formed databases: `_id`s are unique in each collection and older than
`nextId`, and every stored document passed the validators of its schema when it
was saved (for a donation all but the `enum` of `status`, which
`findByIdAndUpdate` does not run). -/
def Store.WF (s : Store) : Prop :=
  (s.users.map User.id).Nodup ∧ (s.donations.map Donation.id).Nodup ∧
  (s.requests.map Request.id).Nodup ∧
  (∀ u ∈ s.users, u.id < s.nextId) ∧ (∀ d ∈ s.donations, d.id < s.nextId) ∧
  (∀ r ∈ s.requests, r.id < s.nextId) ∧
  (∀ u ∈ s.users, validateUser u = true) ∧
  (∀ d ∈ s.donations, donationRequired d = true) ∧
  (∀ r ∈ s.requests, validateRequest r = true)

instance (s : Store) : Decidable s.WF := by
  unfold Store.WF; infer_instance

/-! ## A small database used to exercise the statements -/

/-- A donor. -/
def alice : User :=
  ⟨0, "Alice", "alice@example.org", "hash-a", "555-0100", "1 Mill Lane", "donor", 10⟩

/-- A recipient. -/
def bob : User :=
  ⟨1, "Bob", "bob@example.org", "hash-b", "555-0101", "2 Mill Lane", "recipient", 11⟩

/-- The donation of the concrete scenario of the specification, owned by `alice`. -/
def bread : Donation :=
  ⟨2, "Bread, 5 loaves", "Fresh bread", "bakery", "5", 2000, "Mill Lane", "555-0100",
    0, "Alice", "available", 20⟩

/-- The pending request of `bob` for `bread`. -/
def breadRequest : Request :=
  ⟨3, 2, "Bread, 5 loaves", 1, "Bob", "bob@example.org", "555-0101", "need food",
    "pending", none, 30⟩

/-- The database holding `alice`, `bob`, `bread` and `breadRequest`. -/
def demo : Store := ⟨[alice, bob], [bread], [breadRequest], 4⟩

/-- The identity of `alice`. -/
def aliceId : Identity := ⟨0, "alice@example.org"⟩

/-- The identity of `bob`. -/
def bobId : Identity := ⟨1, "bob@example.org"⟩

/-- A body for `POST /api/donations` that passes validation. -/
def soupBody : DonationBody :=
  ⟨"Soup", "Lentil soup", "cooked", "3 l", some 3000, "Mill Lane", "555-0100", some "claimed"⟩

/-! ## Vocabulary of the statements -/

/-- The outcome the specification calls atomic for `respond` with status
`accepted` on the request `id`: afterwards the request is `accepted` and the
donation it references is `claimed`, or neither collection has changed. -/
def AtomicOutcome (s s1 : Store) (id : ObjectId) : Prop :=
  ((findRequest s1 id).map Request.status = some "accepted" ∧
    ((findRequest s1 id).bind (fun r => findDonation s1 r.donationId)).map Donation.status =
      some "claimed") ∨
  (s1.requests = s.requests ∧ s1.donations = s.donations)

instance (s s1 : Store) (id : ObjectId) : Decidable (AtomicOutcome s s1 id) := by
  unfold AtomicOutcome; infer_instance

/-- The caller owns the donation the request references: that donation is stored
and its `donorId` is the caller's `userId`. -/
def ownsReferenced (s : Store) (caller : Identity) (r : Request) : Prop :=
  ∃ d, findDonation s r.donationId = some d ∧ d.donorId = caller.userId


/-- Whether a call is a call of `PATCH /api/requests/:id`. -/
def Op.isRespond : Op → Bool
  | .respond _ _ _ _ _ => true
  | _ => false


/-- A stand-in for the credential libraries, to run the API on examples. -/
def demoCrypto : Crypto :=
  ⟨fun password _ => "bcrypt:" ++ password, fun password stored => stored == "bcrypt:" ++ password,
    fun payload _ => String.mk (List.replicate payload.userId 'u' ++ ':' :: payload.email.data),
    fun token _ =>
      match token.data.dropWhile (fun x => x == 'u') with
      | ':' :: email => some ⟨(token.data.takeWhile (fun x => x == 'u')).length, String.mk email⟩
      | _ => none⟩

/-- The body with which `alice` registers. -/
def aliceBody : RegisterBody :=
  ⟨"Alice", "alice@example.org", "secret", "555-0100", "1 Mill Lane", "donor"⟩

/-- The caller owns a stored donation with the id. -/
def ownsDonation (s : Store) (caller : Identity) (id : ObjectId) : Prop :=
  ∃ d ∈ s.donations, d.id = id ∧ d.donorId = caller.userId


/-- The body of `POST /api/donations` passes the validators of `donationSchema`:
its date is valid and none of the six strings it supplies is empty. -/
def DonationBody.valid (b : DonationBody) : Bool :=
  b.expiryDate.isSome && requiredString b.title && requiredString b.description &&
  requiredString b.foodType && requiredString b.quantity && requiredString b.location &&
  requiredString b.contactInfo


/-! ## The bearer-token middleware and the protected routes -/

/-- Implements `authHeader.split(' ')` on the characters of the header. -/
def splitOnSpace : List Char → List (List Char)
  | [] => [[]]
  | c :: cs =>
    if c = ' ' then [] :: splitOnSpace cs
    else
      match splitOnSpace cs with
      | [] => [[c]]
      | w :: ws => (c :: w) :: ws

/-- The `token` of `authenticateToken` (server.js 84-85),
`authHeader && authHeader.split(' ')[1]`, when it is truthy. -/
def bearerToken (authorization : Option String) : Option String :=
  match authorization with
  | none => none
  | some header =>
    match (splitOnSpace header.data)[1]? with
    | none => none
    | some [] => none
    | some (c :: cs) => some (String.mk (c :: cs))

/-- Implements `authenticateToken` (server.js 83-98): the status and message it
answers with, or the decoded payload it puts in `req.user` before `next()`. -/
def authenticateToken (c : Crypto) (now : Nat) (authorization : Option String) :
    Except (Nat × String) Identity :=
  match bearerToken authorization with
  | none => .error (401, "Access token required")
  | some token =>
    match c.verify token now with
    | none => .error (403, "Invalid token")
    | some user => .ok user

/-- What the body of an answer of a protected route carries. -/
inductive Payload where
  | donation (d : Donation)
  | donations (l : List Donation)
  | request (r : Request)
  | requests (l : List Request)
  | empty
deriving DecidableEq

/-- The answer of a handler with its payload wrapped. -/
def Response.map {α β : Type} (f : α → β) (r : Response α) : Response β :=
  ⟨r.status, r.message, r.payload.map f⟩

/-- A call of one of the seven routes declared with `authenticateToken`
(server.js 181, 228, 239, 259, 277, 318, 345), without its `Authorization` header. -/
inductive ProtectedCall where
  | createDonation (b : DonationBody)
  | listOwnDonations
  | setStatus (id : ObjectId) (status : String)
  | remove (id : ObjectId)
  | createRequest (donationId : ObjectId) (reason : String)
  | listOwnRequests
  | respond (io : WriteOutcomes) (id : ObjectId) (status : String)
      (donorResponse : Option String)
deriving DecidableEq

/-- The handler of a protected route, run with the identity in `req.user`. -/
def handle (s : Store) (now : Nat) (caller : Identity) :
    ProtectedCall → Store × Response Payload
  | .createDonation b =>
      ((createDonation s now caller b).1, (createDonation s now caller b).2.map .donation)
  | .listOwnDonations => (s, ⟨200, "", some (.donations (listOwnDonations s caller))⟩)
  | .setStatus id status =>
      ((setStatus s caller id status).1, (setStatus s caller id status).2.map .donation)
  | .remove id => ((remove s caller id).1, (remove s caller id).2.map (fun _ => .empty))
  | .createRequest donationId reason =>
      ((createRequest s now caller donationId reason).1,
        (createRequest s now caller donationId reason).2.map .request)
  | .listOwnRequests => (s, (listOwnRequests s caller).map .requests)
  | .respond io id status donorResponse =>
      ((respondWith io s caller id status donorResponse).1,
        (respondWith io s caller id status donorResponse).2.map .request)

/-- A protected route as Express runs it: `authenticateToken`, then the handler. -/
def serve (c : Crypto) (s : Store) (now : Nat) (authorization : Option String)
    (call : ProtectedCall) : Store × Response Payload :=
  match authenticateToken c now authorization with
  | .error (status, message) => (s, ⟨status, message, none⟩)
  | .ok user => handle s now user call

/-- The lifetime of a token, `expiresIn: '24h'`, in seconds. -/
def tokenLifetime : Nat := 86400

/-- What the handlers rely on from `bcryptjs` and `jsonwebtoken`: a hash is a
non-empty string other than the password it was made from, and a token verifies to
the payload it was signed with until it expires. -/
def Crypto.Lawful (c : Crypto) : Prop :=
  (∀ password rounds, c.hash password rounds ≠ "" ∧ c.hash password rounds ≠ password) ∧
  (∀ payload t t1, t ≤ t1 → t1 < t + tokenLifetime →
    c.verify (c.sign payload t) t1 = some payload)

/-- The body of `POST /api/register` passes the validators of `userSchema`: name,
email, phone and address are not empty and the role is `donor` or `recipient`. -/
def RegisterBody.valid (b : RegisterBody) : Bool :=
  requiredString b.name && requiredString b.email && requiredString b.phone &&
  requiredString b.address && userTypeEnum.contains b.userType

/-- The body with which `bob` registers. -/
def bobBody : RegisterBody :=
  ⟨"Bob", "bob@example.org", "hunter2", "555-0101", "2 Mill Lane", "recipient"⟩

/-- The requests on the donations of a user, as the specification words it: the
join on `Request.donationId = Donation.id` with `Donation.donorId` the user. -/
def joinOwnRequests (s : Store) (userId : ObjectId) : List Request :=
  s.requests.filter
    (fun r => s.donations.any (fun d => d.id == r.donationId && d.donorId == userId))


/-- A body for `POST /api/register` with a new email and a role outside the schema. -/
def carolBody : RegisterBody :=
  ⟨"Carol", "carol@example.org", "pw", "555-0102", "3 Mill Lane", "admin"⟩

/-- The calls by which `alice` lists a donation, `bob` requests it twice and
`alice` accepts both requests. -/
def twoAcceptances : List Op :=
  [.register 10 aliceBody, .register 11 bobBody, .createDonation 20 aliceId soupBody,
    .createRequest 30 bobId 2 "need food", .createRequest 31 bobId 2 "still need food",
    .respond ⟨true, true⟩ aliceId 3 "accepted" none,
    .respond ⟨true, true⟩ aliceId 4 "accepted" none]


/-- The identity of `bob` when he is the first to register. -/
def bobFirst : Identity := ⟨0, "bob@example.org"⟩

/-- The calls by which `bob`, a recipient, lists a donation, requests it himself
and then deletes it. -/
def selfRequest : List Op :=
  [.register 11 bobBody, .createDonation 20 bobFirst soupBody,
    .createRequest 30 bobFirst 1 "need food", .remove bobFirst 1]


/-! ## Lemmas on the collection primitives -/

section Collections

variable {α : Type}

theorem find?_key_of_mem (key : α → Nat) {l : List α} (h : (l.map key).Nodup) {a : α}
    (ha : a ∈ l) : l.find? (fun x => key x == key a) = some a := by
  induction l with
  | nil => cases ha
  | cons b l ih =>
    rw [List.map_cons, List.nodup_cons] at h
    rcases List.mem_cons.mp ha with rfl | hal
    · simp [List.find?]
    · have hne : key b ≠ key a := by
        intro heq
        exact h.1 (heq ▸ List.mem_map_of_mem key hal)
      have hb : (key b == key a) = false := by simpa using hne
      rw [List.find?_cons, hb]
      exact ih h.2 hal

theorem find?_key_mem (key : α → Nat) {l : List α} {k : Nat} {a : α}
    (h : l.find? (fun x => key x == k) = some a) : a ∈ l ∧ key a = k := by
  refine ⟨List.mem_of_find?_eq_some h, ?_⟩
  have := List.find?_some h
  simpa using this

theorem updateFirst_map_key (key : α → Nat) (p : α → Bool) (f : α → α)
    (hf : ∀ a, p a = true → key (f a) = key a) (l : List α) :
    (updateFirst p f l).map key = l.map key := by
  induction l with
  | nil => rfl
  | cons a l ih =>
    unfold updateFirst
    split
    · next hp => simp [hf a hp]
    · simp [ih]

theorem mem_updateFirst {p : α → Bool} {f : α → α} {l : List α} {x : α}
    (h : x ∈ updateFirst p f l) : x ∈ l ∨ ∃ a ∈ l, p a = true ∧ x = f a := by
  induction l with
  | nil => cases h
  | cons a l ih =>
    unfold updateFirst at h
    split at h
    · rcases List.mem_cons.mp h with rfl | hx
      · exact Or.inr ⟨a, List.mem_cons_self _ _, by assumption, rfl⟩
      · exact Or.inl (List.mem_cons_of_mem _ hx)
    · rcases List.mem_cons.mp h with rfl | hx
      · exact Or.inl (List.mem_cons_self _ _)
      · rcases ih hx with hl | ⟨b, hb, hpb, rfl⟩
        · exact Or.inl (List.mem_cons_of_mem _ hl)
        · exact Or.inr ⟨b, List.mem_cons_of_mem _ hb, hpb, rfl⟩

theorem find?_updateFirst_same (key : α → Nat) (k : Nat) (f : α → α)
    (hf : ∀ a, key a = k → key (f a) = k) (l : List α) :
    (updateFirst (fun x => key x == k) f l).find? (fun x => key x == k) =
      (l.find? (fun x => key x == k)).map f := by
  induction l with
  | nil => rfl
  | cons a l ih =>
    unfold updateFirst
    by_cases h : key a = k
    · have hb : (key a == k) = true := by simpa using h
      have hc : (key (f a) == k) = true := by simpa using hf a h
      rw [if_pos hb, List.find?_cons_of_pos (p := fun x => key x == k) _ hc,
        List.find?_cons_of_pos (p := fun x => key x == k) _ hb]
      rfl
    · have hb : ¬ (key a == k) = true := by simpa using h
      rw [if_neg hb, List.find?_cons_of_neg (p := fun x => key x == k) _ hb,
        List.find?_cons_of_neg (p := fun x => key x == k) _ hb]
      exact ih

theorem find?_updateFirst_other (key : α → Nat) {k k1 : Nat} (hk : k1 ≠ k) (f : α → α)
    (hf : ∀ a, key a = k → key (f a) = k) (l : List α) :
    (updateFirst (fun x => key x == k) f l).find? (fun x => key x == k1) =
      l.find? (fun x => key x == k1) := by
  induction l with
  | nil => rfl
  | cons a l ih =>
    unfold updateFirst
    by_cases h : key a = k
    · have h1 : ¬ (key a == k1) = true := by
        simpa using fun e : key a = k1 => hk (e.symm.trans h)
      have h2 : ¬ (key (f a) == k1) = true := by
        simpa using fun e : key (f a) = k1 => hk (e.symm.trans (hf a h))
      have hb : (key a == k) = true := by simpa using h
      rw [if_pos hb, List.find?_cons_of_neg (p := fun x => key x == k1) _ h1,
        List.find?_cons_of_neg (p := fun x => key x == k1) _ h2]
    · have hb : ¬ (key a == k) = true := by simpa using h
      rw [if_neg hb]
      by_cases h1 : (key a == k1) = true
      · rw [List.find?_cons_of_pos (p := fun x => key x == k1) _ h1,
          List.find?_cons_of_pos (p := fun x => key x == k1) _ h1]
      · rw [List.find?_cons_of_neg (p := fun x => key x == k1) _ h1,
          List.find?_cons_of_neg (p := fun x => key x == k1) _ h1]
        exact ih

theorem updateFirst_of_find?_none {p : α → Bool} {f : α → α} {l : List α}
    (h : l.find? p = none) : updateFirst p f l = l := by
  induction l with
  | nil => rfl
  | cons a l ih =>
    unfold updateFirst
    by_cases hp : p a = true
    · simp [List.find?, hp] at h
    · simp only [List.find?, hp] at h
      simp [hp, ih h]

end Collections

/-! ## Lemmas on the two document writes -/

section Writes

@[simp] theorem writeDonation_users (s : Store) (d : Donation) :
    (writeDonation s d).users = s.users := rfl

@[simp] theorem writeDonation_requests (s : Store) (d : Donation) :
    (writeDonation s d).requests = s.requests := rfl

@[simp] theorem writeDonation_nextId (s : Store) (d : Donation) :
    (writeDonation s d).nextId = s.nextId := rfl

@[simp] theorem writeRequest_users (s : Store) (r : Request) :
    (writeRequest s r).users = s.users := rfl

@[simp] theorem writeRequest_donations (s : Store) (r : Request) :
    (writeRequest s r).donations = s.donations := rfl

@[simp] theorem writeRequest_nextId (s : Store) (r : Request) :
    (writeRequest s r).nextId = s.nextId := rfl

theorem writeDonation_ids (s : Store) (d : Donation) :
    (writeDonation s d).donations.map Donation.id = s.donations.map Donation.id :=
  updateFirst_map_key Donation.id _ _ (fun a ha => (by simpa using ha : a.id = _).symm) s.donations

theorem writeRequest_ids (s : Store) (r : Request) :
    (writeRequest s r).requests.map Request.id = s.requests.map Request.id :=
  updateFirst_map_key Request.id _ _ (fun a ha => (by simpa using ha : a.id = _).symm) s.requests

theorem findDonation_writeDonation (s : Store) (d : Donation) :
    findDonation (writeDonation s d) d.id = (findDonation s d.id).map (fun _ => d) :=
  find?_updateFirst_same Donation.id d.id (fun _ => d) (fun _ _ => rfl) s.donations

theorem findDonation_writeDonation_ne (s : Store) (d : Donation) {k : ObjectId}
    (hk : k ≠ d.id) : findDonation (writeDonation s d) k = findDonation s k :=
  find?_updateFirst_other Donation.id hk (fun _ => d) (fun _ _ => rfl) s.donations

theorem findRequest_writeRequest (s : Store) (r : Request) :
    findRequest (writeRequest s r) r.id = (findRequest s r.id).map (fun _ => r) :=
  find?_updateFirst_same Request.id r.id (fun _ => r) (fun _ _ => rfl) s.requests

theorem findRequest_writeRequest_ne (s : Store) (r : Request) {k : ObjectId}
    (hk : k ≠ r.id) : findRequest (writeRequest s r) k = findRequest s k :=
  find?_updateFirst_other Request.id hk (fun _ => r) (fun _ _ => rfl) s.requests

theorem mem_writeDonation {s : Store} {d x : Donation}
    (h : x ∈ (writeDonation s d).donations) : x ∈ s.donations ∨ x = d := by
  rcases mem_updateFirst h with h1 | ⟨_, _, _, rfl⟩
  · exact Or.inl h1
  · exact Or.inr rfl

theorem mem_writeRequest {s : Store} {r x : Request}
    (h : x ∈ (writeRequest s r).requests) : x ∈ s.requests ∨ x = r := by
  rcases mem_updateFirst h with h1 | ⟨_, _, _, rfl⟩
  · exact Or.inl h1
  · exact Or.inr rfl

theorem writeDonation_wf {s : Store} (h : s.WF) {d : Donation} (hd : donationRequired d = true)
    (hlt : d.id < s.nextId) : (writeDonation s d).WF := by
  obtain ⟨h1, h2, h3, h4, h5, h6, h7, h8, h9⟩ := h
  refine ⟨h1, ?_, h3, h4, ?_, h6, h7, ?_, h9⟩
  · rw [writeDonation_ids]; exact h2
  · intro x hx
    rcases mem_writeDonation hx with h | rfl
    · exact h5 x h
    · exact hlt
  · intro x hx
    rcases mem_writeDonation hx with h | rfl
    · exact h8 x h
    · exact hd

theorem writeRequest_wf {s : Store} (h : s.WF) {r : Request} (hr : validateRequest r = true)
    (hlt : r.id < s.nextId) : (writeRequest s r).WF := by
  obtain ⟨h1, h2, h3, h4, h5, h6, h7, h8, h9⟩ := h
  refine ⟨h1, h2, ?_, h4, h5, ?_, h7, h8, ?_⟩
  · rw [writeRequest_ids]; exact h3
  · intro x hx
    rcases mem_writeRequest hx with h | rfl
    · exact h6 x h
    · exact hlt
  · intro x hx
    rcases mem_writeRequest hx with h | rfl
    · exact h9 x h
    · exact hr

/-- In a well-formed database a stored donation is the one `findById` returns. -/
theorem findDonation_of_mem {s : Store} (h : s.WF) {d : Donation} (hd : d ∈ s.donations) :
    findDonation s d.id = some d :=
  find?_key_of_mem Donation.id h.2.1 hd

/-- In a well-formed database a stored request is the one `findById` returns. -/
theorem findRequest_of_mem {s : Store} (h : s.WF) {r : Request} (hr : r ∈ s.requests) :
    findRequest s r.id = some r :=
  find?_key_of_mem Request.id h.2.2.1 hr

/-- In a well-formed database a stored user is the one `findById` returns. -/
theorem findUser_of_mem {s : Store} (h : s.WF) {u : User} (hu : u ∈ s.users) :
    findUser s u.id = some u :=
  find?_key_of_mem User.id h.1 hu

theorem findDonation_some {s : Store} {k : ObjectId} {d : Donation}
    (h : findDonation s k = some d) : d ∈ s.donations ∧ d.id = k :=
  find?_key_mem Donation.id h

theorem findRequest_some {s : Store} {k : ObjectId} {r : Request}
    (h : findRequest s k = some r) : r ∈ s.requests ∧ r.id = k :=
  find?_key_mem Request.id h

theorem findUser_some {s : Store} {k : ObjectId} {u : User}
    (h : findUser s k = some u) : u ∈ s.users ∧ u.id = k :=
  find?_key_mem User.id h

end Writes

/-! ## The branches of `PATCH /api/requests/:id` -/

section Respond

variable (io : WriteOutcomes) (s : Store) (caller : Identity) (id : ObjectId)
  (status : String) (donorResponse : Option String)

theorem respondWith_notFound (h : findRequest s id = none) :
    respondWith io s caller id status donorResponse =
      (s, ⟨404, "Request not found", none⟩) := by
  simp [respondWith, h]

theorem respondWith_noDonation {r : Request} (h : findRequest s id = some r)
    (hd : findDonation s r.donationId = none) :
    respondWith io s caller id status donorResponse =
      (s, ⟨403, "Not authorized to update this request", none⟩) := by
  simp [respondWith, h, hd]

theorem respondWith_notOwner {r : Request} {d : Donation} (h : findRequest s id = some r)
    (hd : findDonation s r.donationId = some d) (ho : d.donorId ≠ caller.userId) :
    respondWith io s caller id status donorResponse =
      (s, ⟨403, "Not authorized to update this request", none⟩) := by
  simp [respondWith, h, hd, ho]

theorem respondWith_requestSaveFails {r : Request} {d : Donation}
    (h : findRequest s id = some r) (hd : findDonation s r.donationId = some d)
    (ho : d.donorId = caller.userId)
    (hv : (validateRequest (r.assign status donorResponse) && io.requestSave) = false) :
    respondWith io s caller id status donorResponse = (s, serverError) := by
  simp only [respondWith, h, hd, ho, hv]
  simp

theorem respondWith_other {r : Request} {d : Donation}
    (h : findRequest s id = some r) (hd : findDonation s r.donationId = some d)
    (ho : d.donorId = caller.userId)
    (hv : (validateRequest (r.assign status donorResponse) && io.requestSave) = true)
    (hs : status ≠ "accepted") :
    respondWith io s caller id status donorResponse =
      (writeRequest s (r.assign status donorResponse),
        ⟨200, "Request updated successfully", some (r.assign status donorResponse)⟩) := by
  simp only [respondWith, h, hd, ho, hv]
  simp [hs]

theorem respondWith_donationSaveFails {r : Request} {d : Donation}
    (h : findRequest s id = some r) (hd : findDonation s r.donationId = some d)
    (ho : d.donorId = caller.userId)
    (hv : (validateRequest (r.assign "accepted" donorResponse) && io.requestSave) = true)
    (hw : (validateDonation (d.withStatus "claimed") && io.donationSave) = false) :
    respondWith io s caller id "accepted" donorResponse =
      (writeRequest s (r.assign "accepted" donorResponse), serverError) := by
  simp only [respondWith, h, hd, ho, hv, hw]
  simp

theorem respondWith_accepted {r : Request} {d : Donation}
    (h : findRequest s id = some r) (hd : findDonation s r.donationId = some d)
    (ho : d.donorId = caller.userId)
    (hv : (validateRequest (r.assign "accepted" donorResponse) && io.requestSave) = true)
    (hw : (validateDonation (d.withStatus "claimed") && io.donationSave) = true) :
    respondWith io s caller id "accepted" donorResponse =
      (writeDonation (writeRequest s (r.assign "accepted" donorResponse))
          (d.withStatus "claimed"),
        ⟨200, "Request updated successfully", some (r.assign "accepted" donorResponse)⟩) := by
  simp only [respondWith, h, hd, ho, hv, hw]
  simp

/-- The database after `PATCH /api/requests/:id` is the one before, or the one
with the request written, or the one with the request and the donation written. -/
theorem respondWith_store_cases :
    (respondWith io s caller id status donorResponse).1 = s ∨
    ∃ r d, findRequest s id = some r ∧ findDonation s r.donationId = some d ∧
      d.donorId = caller.userId ∧ validateRequest (r.assign status donorResponse) = true ∧
      ((respondWith io s caller id status donorResponse).1 =
          writeRequest s (r.assign status donorResponse) ∨
       (status = "accepted" ∧ (respondWith io s caller id status donorResponse).1 =
          writeDonation (writeRequest s (r.assign status donorResponse))
            (d.withStatus "claimed"))) := by
  cases h : findRequest s id with
  | none => left; rw [respondWith_notFound io s caller id status donorResponse h]
  | some r =>
    cases hd : findDonation s r.donationId with
    | none => left; rw [respondWith_noDonation io s caller id status donorResponse h hd]
    | some d =>
      by_cases ho : d.donorId = caller.userId
      · cases hv : (validateRequest (r.assign status donorResponse) && io.requestSave) with
        | false =>
          left; rw [respondWith_requestSaveFails io s caller id status donorResponse h hd ho hv]
        | true =>
          have hval := (Bool.and_eq_true_iff.mp hv).1
          right
          refine ⟨r, d, rfl, hd, ho, hval, ?_⟩
          by_cases hs : status = "accepted"
          · subst hs
            cases hw : (validateDonation (d.withStatus "claimed") && io.donationSave) with
            | false =>
              left; rw [respondWith_donationSaveFails io s caller id donorResponse h hd ho hv hw]
            | true =>
              right
              rw [respondWith_accepted io s caller id donorResponse h hd ho hv hw]
              exact ⟨rfl, rfl⟩
          · left; rw [respondWith_other io s caller id status donorResponse h hd ho hv hs]
      · left; rw [respondWith_notOwner io s caller id status donorResponse h hd ho]

end Respond

/-! ## Well-formedness is an invariant of the API -/

section Invariant

theorem nodup_append_fresh {α : Type} (key : α → Nat) {l : List α} {n : Nat}
    (h : (l.map key).Nodup) (hlt : ∀ a ∈ l, key a < n) {x : α} (hx : key x = n) :
    ((l ++ [x]).map key).Nodup := by
  rw [List.map_append, List.nodup_append]
  refine ⟨h, by simp, ?_⟩
  intro a ha hb
  simp only [List.map_cons, List.map_nil, List.mem_singleton] at hb
  obtain ⟨b, hbl, rfl⟩ := List.mem_map.mp ha
  have := hlt b hbl
  omega

theorem lt_append_fresh {α : Type} (key : α → Nat) {l : List α} {n : Nat}
    (hlt : ∀ a ∈ l, key a < n) {x : α} (hx : key x = n) :
    ∀ a ∈ l ++ [x], key a < n + 1 := by
  intro a ha
  rcases List.mem_append.mp ha with h | h
  · exact Nat.lt_succ_of_lt (hlt a h)
  · rw [List.mem_singleton.mp h, hx]; exact Nat.lt_succ_self n

theorem lt_succ_all {α : Type} (key : α → Nat) {l : List α} {n : Nat}
    (hlt : ∀ a ∈ l, key a < n) : ∀ a ∈ l, key a < n + 1 :=
  fun a ha => Nat.lt_succ_of_lt (hlt a ha)

theorem forall_append_one {α : Type} {P : α → Prop} {l : List α} {x : α}
    (h : ∀ a ∈ l, P a) (hx : P x) : ∀ a ∈ l ++ [x], P a := by
  intro a ha
  rcases List.mem_append.mp ha with h1 | h1
  · exact h a h1
  · rw [List.mem_singleton.mp h1]; exact hx

theorem wf_empty : Store.empty.WF := by decide

theorem register_wf (c : Crypto) {s : Store} (h : s.WF) (now : Nat) (b : RegisterBody) :
    (register c s now b).1.WF := by
  have h0 := h
  obtain ⟨h1, h2, h3, h4, h5, h6, h7, h8, h9⟩ := h
  unfold register
  split
  · exact h0
  · dsimp only
    split
    · next hv =>
      exact ⟨nodup_append_fresh User.id h1 h4 rfl, h2, h3, lt_append_fresh User.id h4 rfl,
        lt_succ_all Donation.id h5, lt_succ_all Request.id h6, forall_append_one h7 hv, h8, h9⟩
    · exact h0

theorem createDonation_wf {s : Store} (h : s.WF) (now : Nat) (caller : Identity)
    (b : DonationBody) : (createDonation s now caller b).1.WF := by
  have h0 := h
  obtain ⟨h1, h2, h3, h4, h5, h6, h7, h8, h9⟩ := h
  unfold createDonation
  split
  · exact h0
  · split
    · exact h0
    · dsimp only
      split
      · next hv =>
        have hr := (Bool.and_eq_true_iff.mp hv).1
        exact ⟨h1, nodup_append_fresh Donation.id h2 h5 rfl, h3, lt_succ_all User.id h4,
          lt_append_fresh Donation.id h5 rfl, lt_succ_all Request.id h6, h7,
          forall_append_one h8 hr, h9⟩
      · exact h0

theorem setStatus_wf {s : Store} (h : s.WF) (caller : Identity) (id : ObjectId)
    (status : String) : (setStatus s caller id status).1.WF := by
  unfold setStatus
  split
  · exact h
  · next d hd =>
    have hm := (findDonation_some hd).1
    exact writeDonation_wf h (h.2.2.2.2.2.2.2.1 d hm) (h.2.2.2.2.1 d hm)

theorem remove_wf {s : Store} (h : s.WF) (caller : Identity) (id : ObjectId) :
    (remove s caller id).1.WF := by
  have h0 := h
  obtain ⟨h1, h2, h3, h4, h5, h6, h7, h8, h9⟩ := h
  unfold remove
  split
  · exact h0
  · refine ⟨h1, ?_, h3, h4, ?_, h6, h7, ?_, h9⟩
    · exact h2.sublist ((List.eraseP_sublist _).map _)
    · exact fun d hd => h5 d (List.mem_of_mem_eraseP hd)
    · exact fun d hd => h8 d (List.mem_of_mem_eraseP hd)

theorem createRequest_wf {s : Store} (h : s.WF) (now : Nat) (caller : Identity)
    (donationId : ObjectId) (reason : String) :
    (createRequest s now caller donationId reason).1.WF := by
  have h0 := h
  obtain ⟨h1, h2, h3, h4, h5, h6, h7, h8, h9⟩ := h
  unfold createRequest
  split
  · exact h0
  · split
    · exact h0
    · split
      · exact h0
      · split
        · exact h0
        · dsimp only
          split
          · next hv =>
            exact ⟨h1, h2, nodup_append_fresh Request.id h3 h6 rfl, lt_succ_all User.id h4,
              lt_succ_all Donation.id h5, lt_append_fresh Request.id h6 rfl, h7, h8,
              forall_append_one h9 hv⟩
          · exact h0

theorem respondWith_wf (io : WriteOutcomes) {s : Store} (h : s.WF) (caller : Identity)
    (id : ObjectId) (status : String) (donorResponse : Option String) :
    (respondWith io s caller id status donorResponse).1.WF := by
  rcases respondWith_store_cases io s caller id status donorResponse with
    h1 | ⟨r, d, hr, hd, _, hv, h1 | ⟨_, h1⟩⟩
  · rw [h1]; exact h
  · rw [h1]
    exact writeRequest_wf h hv (h.2.2.2.2.2.1 r (findRequest_some hr).1)
  · rw [h1]
    have hm := (findDonation_some hd).1
    have hw := writeRequest_wf h hv (h.2.2.2.2.2.1 r (findRequest_some hr).1)
    exact writeDonation_wf hw (h.2.2.2.2.2.2.2.1 d hm) (h.2.2.2.2.1 d hm)

theorem step_wf (c : Crypto) {s : Store} (h : s.WF) (op : Op) : (step c s op).WF := by
  cases op with
  | register now b => exact register_wf c h now b
  | login _ _ _ => exact h
  | createDonation now caller b => exact createDonation_wf h now caller b
  | listAvailableDonations _ => exact h
  | listOwnDonations _ => exact h
  | setStatus caller id status => exact setStatus_wf h caller id status
  | remove caller id => exact remove_wf h caller id
  | createRequest now caller donationId reason =>
    exact createRequest_wf h now caller donationId reason
  | listOwnRequests _ => exact h
  | respond io caller id status donorResponse =>
    exact respondWith_wf io h caller id status donorResponse

/-- Every state the server can be in is well-formed. -/
theorem reachable_wf (c : Crypto) {s : Store} (h : Reachable c s) : s.WF := by
  induction h with
  | init => exact wf_empty
  | step op _ ih => exact step_wf c ih op

theorem run_wf (c : Crypto) {s : Store} (h : s.WF) (ops : List Op) : (run c s ops).WF := by
  induction ops generalizing s with
  | nil => exact h
  | cons op ops ih => exact ih (step_wf c h op)

theorem reachable_run (c : Crypto) {s : Store} (h : Reachable c s) (ops : List Op) :
    Reachable c (run c s ops) := by
  induction ops generalizing s with
  | nil => exact h
  | cons op ops ih => exact ih (Reachable.step op h)

end Invariant

/-! ## Lemmas on validation and on the public listing -/

section Listing

theorem validateRequest_assign {r : Request} (h : validateRequest r = true) {status : String}
    (hs : requestStatusEnum.contains status = true) (donorResponse : Option String) :
    validateRequest (r.assign status donorResponse) = true := by
  unfold validateRequest at h ⊢
  rw [Bool.and_eq_true] at h ⊢
  exact ⟨h.1, hs⟩

theorem validateDonation_withStatus {d : Donation} (h : donationRequired d = true)
    {status : String} (hs : donationStatusEnum.contains status = true) :
    validateDonation (d.withStatus status) = true := by
  unfold validateDonation
  rw [Bool.and_eq_true]
  exact ⟨h, hs⟩

theorem mem_newestFirst {α : Type} (createdAt : α → Nat) {l : List α} {x : α} :
    x ∈ newestFirst createdAt l ↔ x ∈ l := by
  unfold newestFirst
  exact List.mem_insertionSort _

/-- The documents `GET /api/donations` answers with: when the database is
connected, the stored donations whose status is `available`, populated. -/
theorem mem_listAvailableDonations {readyState : Nat} {s : Store} {p : PopulatedDonation} :
    p ∈ listAvailableDonations readyState s ↔
      isMongoConnected readyState = true ∧
        ∃ d ∈ s.donations, d.status = "available" ∧ populate s d = p := by
  unfold listAvailableDonations
  cases hc : isMongoConnected readyState
  · simp
  · simp [mem_newestFirst, and_assoc]

theorem populate_doc (s : Store) (d : Donation) : (populate s d).doc = d := rfl

end Listing

/-! ## C1: accepting a request claims the donation -/

/-- C1: in every well-formed state in which the request `r` is stored and the
caller owns the stored donation `d` that `r` references, `respond` with status
`accepted` answers 200, and afterwards the request found under `r`'s id has status
`accepted`, the donation found under `d`'s id has status `claimed`, and no
document of `listAvailableDonations()` has `d`'s id. -/
theorem respond_accepted_claims (s : Store) (caller : Identity) (r : Request) (d : Donation)
    (donorResponse : Option String) (readyState : Nat)
    (hwf : s.WF) (hr : r ∈ s.requests) (hd : d ∈ s.donations)
    (href : r.donationId = d.id) (hown : d.donorId = caller.userId) :
    (respond s caller r.id "accepted" donorResponse).2.status = 200 ∧
    (∃ r1, findRequest (respond s caller r.id "accepted" donorResponse).1 r.id = some r1 ∧
      r1.status = "accepted") ∧
    (∃ d1, findDonation (respond s caller r.id "accepted" donorResponse).1 d.id = some d1 ∧
      d1.status = "claimed") ∧
    ∀ p ∈ listAvailableDonations readyState (respond s caller r.id "accepted" donorResponse).1,
      p.doc.id ≠ d.id := by
  have hfr := findRequest_of_mem hwf hr
  have hfd : findDonation s r.donationId = some d := href ▸ findDonation_of_mem hwf hd
  have hv : (validateRequest (r.assign "accepted" donorResponse) && true) = true := by
    rw [Bool.and_true]
    exact validateRequest_assign (hwf.2.2.2.2.2.2.2.2 r hr) (by decide) donorResponse
  have hw : (validateDonation (d.withStatus "claimed") && true) = true := by
    rw [Bool.and_true]
    exact validateDonation_withStatus (hwf.2.2.2.2.2.2.2.1 d hd) (by decide)
  have hout := respondWith_accepted ⟨true, true⟩ s caller r.id donorResponse hfr hfd hown hv hw
  have hwf1 : (respond s caller r.id "accepted" donorResponse).1.WF :=
    respondWith_wf ⟨true, true⟩ hwf caller r.id "accepted" donorResponse
  have hfind : findDonation (respond s caller r.id "accepted" donorResponse).1 d.id =
      some (d.withStatus "claimed") := by
    unfold respond
    rw [hout]
    have := findDonation_writeDonation (writeRequest s (r.assign "accepted" donorResponse))
      (d.withStatus "claimed")
    have hfd1 : findDonation (writeRequest s (r.assign "accepted" donorResponse)) d.id =
        some d := findDonation_of_mem hwf hd
    rw [show (d.withStatus "claimed").id = d.id from rfl, hfd1] at this
    exact this
  refine ⟨?_, ⟨r.assign "accepted" donorResponse, ?_, rfl⟩, ⟨d.withStatus "claimed", hfind, rfl⟩,
    ?_⟩
  · unfold respond; rw [hout]
  · unfold respond
    rw [hout]
    have := findRequest_writeRequest s (r.assign "accepted" donorResponse)
    rw [show (r.assign "accepted" donorResponse).id = r.id from rfl, hfr] at this
    exact this
  · intro p hp hid
    obtain ⟨_, x, hx, hst, rfl⟩ := mem_listAvailableDonations.mp hp
    rw [populate_doc] at hid
    have h1 := findDonation_of_mem hwf1 hx
    rw [hid, hfind] at h1
    have h2 : x.status = "claimed" := by
      rw [← Option.some.inj h1]; rfl
    rw [h2] at hst
    exact absurd hst (by decide)

/-- C1 at the scenario of the specification: `alice` accepts `bob`'s request for
her bread. -/
theorem respond_accepted_claims_witness :
    (demo.WF ∧ breadRequest ∈ demo.requests ∧ bread ∈ demo.donations ∧
      breadRequest.donationId = bread.id ∧ bread.donorId = aliceId.userId) ∧
    (respond demo aliceId breadRequest.id "accepted" none).2.status = 200 ∧
    (∃ r1, findRequest (respond demo aliceId breadRequest.id "accepted" none).1
        breadRequest.id = some r1 ∧ r1.status = "accepted") ∧
    (∃ d1, findDonation (respond demo aliceId breadRequest.id "accepted" none).1
        bread.id = some d1 ∧ d1.status = "claimed") ∧
    ∀ p ∈ listAvailableDonations 1 (respond demo aliceId breadRequest.id "accepted" none).1,
      p.doc.id ≠ bread.id :=
  ⟨by decide,
    respond_accepted_claims demo aliceId breadRequest bread none 1 (by decide) (by decide)
      (by decide) (by decide) (by decide)⟩

/-! ## C2: the two writes of an acceptance -/

/-- C2, refuted as stated: when the request write succeeds and the donation write
fails, `alice`'s acceptance of `bob`'s request leaves the request `accepted` and
the donation `available`, which is neither of the two outcomes of an atomic call. -/
theorem respond_accepted_not_atomic :
    ¬ AtomicOutcome demo (respondWith ⟨true, false⟩ demo aliceId 3 "accepted" none).1 3 := by
  decide

/-- C2, amended: on a well-formed state, `respond` with status `accepted` has one
of the two atomic outcomes whenever the request write fails or the donation write
succeeds; when the request write succeeds and the donation write fails, the
owner's call answers 500 with the request stored as `accepted` and the donations
unchanged (the first write is not rolled back). -/
theorem respond_accepted_outcomes (io : WriteOutcomes) (s : Store) (caller : Identity)
    (id : ObjectId) (donorResponse : Option String) (hwf : s.WF) :
    ((io.requestSave = false ∨ io.donationSave = true) →
      AtomicOutcome s (respondWith io s caller id "accepted" donorResponse).1 id) ∧
    (io.requestSave = true → io.donationSave = false →
      ∀ r d, findRequest s id = some r → findDonation s r.donationId = some d →
        d.donorId = caller.userId →
        (respondWith io s caller id "accepted" donorResponse).2.status = 500 ∧
        findRequest (respondWith io s caller id "accepted" donorResponse).1 id =
          some (r.assign "accepted" donorResponse) ∧
        (respondWith io s caller id "accepted" donorResponse).1.donations = s.donations) := by
  constructor
  · intro hio
    cases h : findRequest s id with
    | none =>
      rw [respondWith_notFound io s caller id "accepted" donorResponse h]
      exact Or.inr ⟨rfl, rfl⟩
    | some r =>
      cases hd : findDonation s r.donationId with
      | none =>
        rw [respondWith_noDonation io s caller id "accepted" donorResponse h hd]
        exact Or.inr ⟨rfl, rfl⟩
      | some d =>
        by_cases ho : d.donorId = caller.userId
        · cases hv : (validateRequest (r.assign "accepted" donorResponse) && io.requestSave) with
          | false =>
            rw [respondWith_requestSaveFails io s caller id "accepted" donorResponse h hd ho hv]
            exact Or.inr ⟨rfl, rfl⟩
          | true =>
            have hrs := (Bool.and_eq_true_iff.mp hv).2
            have hds : io.donationSave = true := by
              rcases hio with h1 | h1
              · rw [hrs] at h1; cases h1
              · exact h1
            have hw : (validateDonation (d.withStatus "claimed") && io.donationSave) = true := by
              rw [hds, Bool.and_true]
              exact validateDonation_withStatus
                (hwf.2.2.2.2.2.2.2.1 d (findDonation_some hd).1) (by decide)
            rw [respondWith_accepted io s caller id donorResponse h hd ho hv hw]
            left
            have hid := (findRequest_some h).2
            have h1 : findRequest (writeDonation (writeRequest s
                (r.assign "accepted" donorResponse)) (d.withStatus "claimed")) id =
                some (r.assign "accepted" donorResponse) := by
              have := findRequest_writeRequest s (r.assign "accepted" donorResponse)
              rw [show (r.assign "accepted" donorResponse).id = r.id from rfl, hid, h] at this
              exact this
            have h2 : findDonation (writeDonation (writeRequest s
                (r.assign "accepted" donorResponse)) (d.withStatus "claimed")) r.donationId =
                some (d.withStatus "claimed") := by
              have := findDonation_writeDonation
                (writeRequest s (r.assign "accepted" donorResponse)) (d.withStatus "claimed")
              have hfd1 : findDonation (writeRequest s (r.assign "accepted" donorResponse))
                  r.donationId = some d := hd
              rw [show (d.withStatus "claimed").id = d.id from rfl, (findDonation_some hd).2,
                hfd1] at this
              exact this
            rw [h1]
            refine ⟨rfl, ?_⟩
            show Option.map Donation.status (findDonation _ r.donationId) = _
            rw [h2]
            rfl
        · rw [respondWith_notOwner io s caller id "accepted" donorResponse h hd ho]
          exact Or.inr ⟨rfl, rfl⟩
  · intro hrs hds r d h hd ho
    have hv : (validateRequest (r.assign "accepted" donorResponse) && io.requestSave) = true := by
      rw [hrs, Bool.and_true]
      exact validateRequest_assign (hwf.2.2.2.2.2.2.2.2 r (findRequest_some h).1) (by decide)
        donorResponse
    have hw : (validateDonation (d.withStatus "claimed") && io.donationSave) = false := by
      rw [hds, Bool.and_false]
    rw [respondWith_donationSaveFails io s caller id donorResponse h hd ho hv hw]
    refine ⟨rfl, ?_, rfl⟩
    have := findRequest_writeRequest s (r.assign "accepted" donorResponse)
    rw [show (r.assign "accepted" donorResponse).id = r.id from rfl, (findRequest_some h).2,
      h] at this
    exact this

/-- C2 amended, at the scenario of the specification with a failing donation write. -/
theorem respond_accepted_outcomes_witness :
    demo.WF ∧
    (((⟨true, false⟩ : WriteOutcomes).requestSave = false ∨
        (⟨true, false⟩ : WriteOutcomes).donationSave = true) →
      AtomicOutcome demo (respondWith ⟨true, false⟩ demo aliceId 3 "accepted" none).1 3) ∧
    ((⟨true, false⟩ : WriteOutcomes).requestSave = true →
      (⟨true, false⟩ : WriteOutcomes).donationSave = false →
      ∀ r d, findRequest demo 3 = some r → findDonation demo r.donationId = some d →
        d.donorId = aliceId.userId →
        (respondWith ⟨true, false⟩ demo aliceId 3 "accepted" none).2.status = 500 ∧
        findRequest (respondWith ⟨true, false⟩ demo aliceId 3 "accepted" none).1 3 =
          some (r.assign "accepted" none) ∧
        (respondWith ⟨true, false⟩ demo aliceId 3 "accepted" none).1.donations =
          demo.donations) :=
  ⟨by decide, respond_accepted_outcomes ⟨true, false⟩ demo aliceId 3 none (by decide)⟩

/-! ## What each handler leaves alone -/

section Frame

theorem mem_updateFirst_of_not {α : Type} {p : α → Bool} {f : α → α} {l : List α} {x : α}
    (hx : x ∈ l) (hp : p x = false) : x ∈ updateFirst p f l := by
  induction l with
  | nil => cases hx
  | cons a l ih =>
    unfold updateFirst
    rcases List.mem_cons.mp hx with rfl | h
    · simp [hp]
    · split
      · exact List.mem_cons_of_mem _ h
      · exact List.mem_cons_of_mem _ (ih h)

theorem register_donations (c : Crypto) (s : Store) (now : Nat) (b : RegisterBody) :
    (register c s now b).1.donations = s.donations := by
  unfold register
  split
  · rfl
  · dsimp only
    split <;> rfl

theorem register_requests (c : Crypto) (s : Store) (now : Nat) (b : RegisterBody) :
    (register c s now b).1.requests = s.requests := by
  unfold register
  split
  · rfl
  · dsimp only
    split <;> rfl

theorem createDonation_requests (s : Store) (now : Nat) (caller : Identity)
    (b : DonationBody) : (createDonation s now caller b).1.requests = s.requests := by
  unfold createDonation
  split
  · rfl
  · split
    · rfl
    · dsimp only
      split <;> rfl

theorem createDonation_users (s : Store) (now : Nat) (caller : Identity)
    (b : DonationBody) : (createDonation s now caller b).1.users = s.users := by
  unfold createDonation
  split
  · rfl
  · split
    · rfl
    · dsimp only
      split <;> rfl

theorem setStatus_requests (s : Store) (caller : Identity) (id : ObjectId) (status : String) :
    (setStatus s caller id status).1.requests = s.requests := by
  unfold setStatus
  split <;> rfl

theorem setStatus_users (s : Store) (caller : Identity) (id : ObjectId) (status : String) :
    (setStatus s caller id status).1.users = s.users := by
  unfold setStatus
  split <;> rfl

theorem remove_requests (s : Store) (caller : Identity) (id : ObjectId) :
    (remove s caller id).1.requests = s.requests := by
  unfold remove
  split <;> rfl

theorem remove_users (s : Store) (caller : Identity) (id : ObjectId) :
    (remove s caller id).1.users = s.users := by
  unfold remove
  split <;> rfl

theorem createRequest_donations (s : Store) (now : Nat) (caller : Identity)
    (donationId : ObjectId) (reason : String) :
    (createRequest s now caller donationId reason).1.donations = s.donations := by
  unfold createRequest
  split
  · rfl
  · split
    · rfl
    · split
      · rfl
      · split
        · rfl
        · dsimp only
          split <;> rfl

theorem createRequest_users (s : Store) (now : Nat) (caller : Identity)
    (donationId : ObjectId) (reason : String) :
    (createRequest s now caller donationId reason).1.users = s.users := by
  unfold createRequest
  split
  · rfl
  · split
    · rfl
    · split
      · rfl
      · split
        · rfl
        · dsimp only
          split <;> rfl

/-- The requests after `POST /api/requests`: those before, or those before
followed by one new request. -/
theorem createRequest_requests (s : Store) (now : Nat) (caller : Identity)
    (donationId : ObjectId) (reason : String) :
    (createRequest s now caller donationId reason).1.requests = s.requests ∨
    ∃ x, x.id = s.nextId ∧
      (createRequest s now caller donationId reason).1.requests = s.requests ++ [x] := by
  unfold createRequest
  split
  · exact Or.inl rfl
  · split
    · exact Or.inl rfl
    · split
      · exact Or.inl rfl
      · split
        · exact Or.inl rfl
        · dsimp only
          split
          · exact Or.inr ⟨_, rfl, rfl⟩
          · exact Or.inl rfl

theorem respondWith_users (io : WriteOutcomes) (s : Store) (caller : Identity)
    (id : ObjectId) (status : String) (donorResponse : Option String) :
    (respondWith io s caller id status donorResponse).1.users = s.users := by
  rcases respondWith_store_cases io s caller id status donorResponse with
    h | ⟨_, _, _, _, _, _, h | ⟨_, h⟩⟩ <;> rw [h] <;> rfl

end Frame

/-! ## C3: who may respond to a request -/

/-- C3: `respond` answers 404 exactly when no request has the id; for a stored
request it answers 403 exactly when the caller does not own the donation the
request references; an answer 404 or 403 leaves the whole database unchanged; a
call of `respond` that changes the requests was made by the owner of the
referenced donation, and in a well-formed state a stored request that any call of
the API replaces was replaced by a call of the owner of its donation. -/
theorem respond_authorization (c : Crypto) (io : WriteOutcomes) (s : Store)
    (caller : Identity) (id : ObjectId) (status : String) (donorResponse : Option String) :
    ((respondWith io s caller id status donorResponse).2.status = 404 ↔
      findRequest s id = none) ∧
    (∀ r, findRequest s id = some r →
      ((respondWith io s caller id status donorResponse).2.status = 403 ↔
        ¬ ownsReferenced s caller r)) ∧
    ((respondWith io s caller id status donorResponse).2.status = 404 ∨
      (respondWith io s caller id status donorResponse).2.status = 403 →
      (respondWith io s caller id status donorResponse).1 = s) ∧
    ((respondWith io s caller id status donorResponse).1.requests ≠ s.requests →
      ∃ r, findRequest s id = some r ∧ ownsReferenced s caller r) ∧
    (s.WF → ∀ (op : Op) (r : Request), r ∈ s.requests → r ∉ (step c s op).requests →
      ∃ who, op.caller = some who ∧ ownsReferenced s who r) := by
  have key : ∀ r d, findRequest s id = some r → findDonation s r.donationId = some d →
      d.donorId = caller.userId →
      (respondWith io s caller id status donorResponse).2.status = 500 ∨
      (respondWith io s caller id status donorResponse).2.status = 200 := by
    intro r d h hd ho
    cases hv : (validateRequest (r.assign status donorResponse) && io.requestSave) with
    | false =>
      rw [respondWith_requestSaveFails io s caller id status donorResponse h hd ho hv]
      exact Or.inl rfl
    | true =>
      by_cases hs : status = "accepted"
      · subst hs
        cases hw : (validateDonation (d.withStatus "claimed") && io.donationSave) with
        | false =>
          rw [respondWith_donationSaveFails io s caller id donorResponse h hd ho hv hw]
          exact Or.inl rfl
        | true =>
          rw [respondWith_accepted io s caller id donorResponse h hd ho hv hw]
          exact Or.inr rfl
      · rw [respondWith_other io s caller id status donorResponse h hd ho hv hs]
        exact Or.inr rfl
  have notOwner : ∀ r, findRequest s id = some r → ¬ ownsReferenced s caller r →
      respondWith io s caller id status donorResponse =
        (s, ⟨403, "Not authorized to update this request", none⟩) := by
    intro r h hno
    cases hd : findDonation s r.donationId with
    | none => exact respondWith_noDonation io s caller id status donorResponse h hd
    | some d =>
      have ho : d.donorId ≠ caller.userId := fun e => hno ⟨d, hd, e⟩
      exact respondWith_notOwner io s caller id status donorResponse h hd ho
  have owner : ∀ r, findRequest s id = some r → ownsReferenced s caller r →
      (respondWith io s caller id status donorResponse).2.status = 500 ∨
      (respondWith io s caller id status donorResponse).2.status = 200 := by
    intro r h ⟨d, hd, ho⟩
    exact key r d h hd ho
  refine ⟨?_, ?_, ?_, ?_, ?_⟩
  · constructor
    · intro h404
      cases h : findRequest s id with
      | none => rfl
      | some r =>
        by_cases hown : ownsReferenced s caller r
        · rcases owner r h hown with h5 | h2 <;> rw [h404] at * <;> simp at *
        · rw [notOwner r h hown] at h404
          simp at h404
    · intro h
      rw [respondWith_notFound io s caller id status donorResponse h]
  · intro r h
    constructor
    · intro h403 hown
      rcases owner r h hown with h5 | h2 <;> rw [h403] at * <;> simp at *
    · intro hno
      rw [notOwner r h hno]
  · intro hst
    cases h : findRequest s id with
    | none => rw [respondWith_notFound io s caller id status donorResponse h]
    | some r =>
      by_cases hown : ownsReferenced s caller r
      · rcases owner r h hown with h5 | h2 <;> rcases hst with h4 | h3 <;> simp_all
      · rw [notOwner r h hown]
  · intro hne
    cases h : findRequest s id with
    | none =>
      rw [respondWith_notFound io s caller id status donorResponse h] at hne
      exact absurd rfl hne
    | some r =>
      by_cases hown : ownsReferenced s caller r
      · exact ⟨r, rfl, hown⟩
      · rw [notOwner r h hown] at hne
        exact absurd rfl hne
  · intro hwf op r hr hnot
    cases op with
    | register now b => exact absurd (by rw [step, register_requests]; exact hr) hnot
    | login _ _ _ => exact absurd hr hnot
    | createDonation now who b =>
      exact absurd (by rw [step, createDonation_requests]; exact hr) hnot
    | listAvailableDonations _ => exact absurd hr hnot
    | listOwnDonations _ => exact absurd hr hnot
    | setStatus who k st => exact absurd (by rw [step, setStatus_requests]; exact hr) hnot
    | remove who k => exact absurd (by rw [step, remove_requests]; exact hr) hnot
    | createRequest now who k reason =>
      refine absurd ?_ hnot
      rw [step]
      rcases createRequest_requests s now who k reason with h | ⟨x, _, h⟩ <;> rw [h]
      · exact hr
      · exact List.mem_append_left _ hr
    | listOwnRequests _ => exact absurd hr hnot
    | respond io1 who k st dr =>
      refine ⟨who, rfl, ?_⟩
      rw [step] at hnot
      rcases respondWith_store_cases io1 s who k st dr with
        h | ⟨r0, d0, hr0, hd0, ho0, _, h⟩
      · rw [h] at hnot; exact absurd hr hnot
      · have hreq : (respondWith io1 s who k st dr).1.requests =
            (writeRequest s (r0.assign st dr)).requests := by
          rcases h with h | ⟨_, h⟩
          · rw [h]
          · rw [h]; rfl
        rw [hreq] at hnot
        by_cases hid : r.id = r0.id
        · have h1 := findRequest_of_mem hwf hr
          have h2 := findRequest_of_mem hwf (findRequest_some hr0).1
          rw [hid, h2] at h1
          have : r0 = r := Option.some.inj h1
          subst this
          exact ⟨d0, hd0, ho0⟩
        · refine absurd (mem_updateFirst_of_not hr ?_) hnot
          simpa using hid

/-! ## C4: the guards of `createRequest` -/

/-- The request `POST /api/requests` builds from well-formed records passes
validation exactly when the `reason` of the body is not empty. -/
theorem validateRequest_new {user : User} {donation : Donation}
    (hu : validateUser user = true) (hd : donationRequired donation = true)
    (id now : Nat) (reason : String) :
    validateRequest (newRequest id now user donation reason) = requiredString reason := by
  simp only [validateUser, userRequired, Bool.and_eq_true] at hu
  simp only [donationRequired, Bool.and_eq_true] at hd
  obtain ⟨⟨⟨⟨⟨⟨hn, he⟩, _⟩, hp⟩, _⟩, _⟩, _⟩ := hu
  obtain ⟨⟨⟨⟨⟨⟨ht, _⟩, _⟩, _⟩, _⟩, _⟩, _⟩ := hd
  have hpend : requestStatusEnum.contains "pending" = true := by decide
  simp only [validateRequest, requestRequired, newRequest, hn, he, hp, ht, hpend,
    Bool.true_and, Bool.and_true]

/-- C4, refuted as stated: `bob` is a recipient and the bread is stored and
`available`, so none of the three failure conditions holds, yet `createRequest`
with an empty `reason` does not succeed (it answers 500). -/
theorem createRequest_empty_reason_fails :
    findUser demo bobId.userId = some bob ∧ bob.userType = "recipient" ∧
    findDonation demo 2 = some bread ∧ bread.status = "available" ∧
    (createRequest demo 40 bobId 2 "").2.status = 500 ∧
    (createRequest demo 40 bobId 2 "").1 = demo := by
  decide

/-- C4, amended: in a well-formed state, for a caller who resolves to a user,
`createRequest` answers 403 if the user is not a recipient, else 404 if no donation
has the id, else 400 if the donation's status is not `available`; it succeeds (201)
exactly when none of these holds and the `reason` is not empty; and whenever it
does not succeed the database is unchanged. -/
theorem createRequest_guards (s : Store) (now : Nat) (caller : Identity)
    (donationId : ObjectId) (reason : String) (user : User)
    (hwf : s.WF) (hu : findUser s caller.userId = some user) :
    (user.userType ≠ "recipient" →
      (createRequest s now caller donationId reason).2.status = 403) ∧
    (user.userType = "recipient" → findDonation s donationId = none →
      (createRequest s now caller donationId reason).2.status = 404) ∧
    (user.userType = "recipient" → ∀ d, findDonation s donationId = some d →
      d.status ≠ "available" →
      (createRequest s now caller donationId reason).2.status = 400) ∧
    ((createRequest s now caller donationId reason).2.status = 201 ↔
      user.userType = "recipient" ∧
      (∃ d, findDonation s donationId = some d ∧ d.status = "available") ∧ reason ≠ "") ∧
    ((createRequest s now caller donationId reason).2.status ≠ 201 →
      (createRequest s now caller donationId reason).1 = s) := by
  have huv := hwf.2.2.2.2.2.2.1 user (findUser_some hu).1
  by_cases hrole : user.userType = "recipient"
  · cases hd : findDonation s donationId with
    | none =>
      have hout : createRequest s now caller donationId reason =
          (s, ⟨404, "Donation not found", none⟩) := by
        simp [createRequest, hu, hrole, hd]
      rw [hout]
      simp [hrole]
    | some d =>
      have hdv := hwf.2.2.2.2.2.2.2.1 d (findDonation_some hd).1
      by_cases hav : d.status = "available"
      · have hval := validateRequest_new huv hdv s.nextId now reason
        by_cases hreason : reason = ""
        · have hout : createRequest s now caller donationId reason = (s, serverError) := by
            simp only [createRequest, hu, hrole, hd, hav, hval]
            simp [requiredString, hreason]
          rw [hout]
          simp [hrole, hav, hreason, serverError]
        · have hreq : requiredString reason = true := by simpa [requiredString] using hreason
          have hout : (createRequest s now caller donationId reason).2.status = 201 := by
            simp only [createRequest, hu, hrole, hd, hav, hval, hreq]
            simp
          rw [hout]
          simp [hrole, hav, hreason]
      · have hout : createRequest s now caller donationId reason =
            (s, ⟨400, "This donation is no longer available", none⟩) := by
          simp [createRequest, hu, hrole, hd, hav]
        rw [hout]
        simp [hrole, hav]
  · have hout : createRequest s now caller donationId reason =
        (s, ⟨403, "Only recipients can request food", none⟩) := by
      simp [createRequest, hu, hrole]
    rw [hout]
    simp [hrole]

/-- C4 amended, at `bob` requesting the bread with a reason. -/
theorem createRequest_guards_witness :
    (demo.WF ∧ findUser demo bobId.userId = some bob) ∧
    (bob.userType ≠ "recipient" → (createRequest demo 40 bobId 2 "please").2.status = 403) ∧
    (bob.userType = "recipient" → findDonation demo 2 = none →
      (createRequest demo 40 bobId 2 "please").2.status = 404) ∧
    (bob.userType = "recipient" → ∀ d, findDonation demo 2 = some d →
      d.status ≠ "available" → (createRequest demo 40 bobId 2 "please").2.status = 400) ∧
    ((createRequest demo 40 bobId 2 "please").2.status = 201 ↔
      bob.userType = "recipient" ∧
      (∃ d, findDonation demo 2 = some d ∧ d.status = "available") ∧ "please" ≠ "") ∧
    ((createRequest demo 40 bobId 2 "please").2.status ≠ 201 →
      (createRequest demo 40 bobId 2 "please").1 = demo) :=
  ⟨by decide, createRequest_guards demo 40 bobId 2 "please" bob (by decide) (by decide)⟩

/-! ## C5: the status of a request -/

/-- C5, refuted as stated: after `alice` has accepted `bob`'s request, her later
`respond` with status `rejected` changes the status of that request from
`accepted` to `rejected`. -/
theorem respond_overwrites_terminal :
    (findRequest (respond demo aliceId 3 "accepted" none).1 3).map Request.status =
      some "accepted" ∧
    (respond (respond demo aliceId 3 "accepted" none).1 aliceId 3 "rejected" none).2.status =
      200 ∧
    (findRequest (respond (respond demo aliceId 3 "accepted" none).1 aliceId 3 "rejected"
      none).1 3).map Request.status = some "rejected" := by
  decide

/-- C5, amended: in a well-formed state, `respond` by the owner of the referenced
donation with any status of `pending`, `accepted`, `rejected` succeeds and stores
that status whatever the current status of the request is (there is no terminal
status); a call of any other route keeps every stored request as it is; and after
any call the status of every stored request is one of the three values. -/
theorem request_status_transitions (c : Crypto) (s : Store) (hwf : s.WF) :
    (∀ (caller : Identity) (r : Request) (d : Donation) (status : String)
        (donorResponse : Option String),
      r ∈ s.requests → findDonation s r.donationId = some d → d.donorId = caller.userId →
      requestStatusEnum.contains status = true →
      (respond s caller r.id status donorResponse).2.status = 200 ∧
      findRequest (respond s caller r.id status donorResponse).1 r.id =
        some (r.assign status donorResponse) ∧
      (r.assign status donorResponse).status = status) ∧
    (∀ (op : Op) (r : Request), op.isRespond = false → r ∈ s.requests →
      r ∈ (step c s op).requests) ∧
    (∀ (op : Op) (r : Request), r ∈ (step c s op).requests →
      requestStatusEnum.contains r.status = true) := by
  refine ⟨?_, ?_, ?_⟩
  · intro caller r d status donorResponse hr hd ho hs
    have hfr := findRequest_of_mem hwf hr
    have hv : (validateRequest (r.assign status donorResponse) && true) = true := by
      rw [Bool.and_true]
      exact validateRequest_assign (hwf.2.2.2.2.2.2.2.2 r hr) hs donorResponse
    have hfind : findRequest (writeRequest s (r.assign status donorResponse)) r.id =
        some (r.assign status donorResponse) := by
      have := findRequest_writeRequest s (r.assign status donorResponse)
      rw [show (r.assign status donorResponse).id = r.id from rfl, hfr] at this
      exact this
    by_cases hacc : status = "accepted"
    · subst hacc
      have hw : (validateDonation (d.withStatus "claimed") && true) = true := by
        rw [Bool.and_true]
        exact validateDonation_withStatus
          (hwf.2.2.2.2.2.2.2.1 d (findDonation_some hd).1) (by decide)
      unfold respond
      rw [respondWith_accepted ⟨true, true⟩ s caller r.id donorResponse hfr hd ho hv hw]
      exact ⟨rfl, hfind, rfl⟩
    · unfold respond
      rw [respondWith_other ⟨true, true⟩ s caller r.id status donorResponse hfr hd ho hv hacc]
      exact ⟨rfl, hfind, rfl⟩
  · intro op r hop hr
    cases op with
    | register now b => rw [step, register_requests]; exact hr
    | login _ _ _ => exact hr
    | createDonation now who b => rw [step, createDonation_requests]; exact hr
    | listAvailableDonations _ => exact hr
    | listOwnDonations _ => exact hr
    | setStatus who k st => rw [step, setStatus_requests]; exact hr
    | remove who k => rw [step, remove_requests]; exact hr
    | createRequest now who k reason =>
      rw [step]
      rcases createRequest_requests s now who k reason with h | ⟨x, _, h⟩ <;> rw [h]
      · exact hr
      · exact List.mem_append_left _ hr
    | listOwnRequests _ => exact hr
    | respond _ _ _ _ _ => cases hop
  · intro op r hr
    have h := (step_wf c hwf op).2.2.2.2.2.2.2.2 r hr
    unfold validateRequest at h
    exact (Bool.and_eq_true_iff.mp h).2

/-- C5 amended, at the state in which `bob`'s request has been accepted. -/
theorem request_status_transitions_witness :
    (respond demo aliceId 3 "accepted" none).1.WF ∧
    (respond (respond demo aliceId 3 "accepted" none).1 aliceId 3 "pending" none).2.status =
      200 :=
  ⟨by decide,
    ((request_status_transitions demoCrypto (respond demo aliceId 3 "accepted" none).1
      (by decide)).1 aliceId (breadRequest.assign "accepted" none)
      (bread.withStatus "claimed") "pending" none (by decide) (by decide) (by decide)
      (by decide)).1⟩

/-! ## C6: a donation's status in the hands of other callers -/

/-- C6 at the failing input: `bob`, a recipient who does not own the bread, calls
`setStatus` on it; the call succeeds and the stored status goes from `available`
to `claimed`. -/
theorem setStatus_by_non_owner :
    bread.donorId ≠ bobId.userId ∧
    (findUser demo bobId.userId).map User.userType = some "recipient" ∧
    (findDonation demo 2).map Donation.status = some "available" ∧
    (setStatus demo bobId 2 "claimed").2.status = 200 ∧
    (findDonation (setStatus demo bobId 2 "claimed").1 2).map Donation.status =
      some "claimed" := by
  decide

/-! ## C7: `setStatus` -/

/-- C7: for every caller and every status value, `setStatus` answers 404 and
changes nothing exactly when no donation has the id; otherwise it answers 200 with
the found donation in which only `status` is replaced by the new value, that
document is what is then stored under the id, every donation with another id and
every request and user is as before. The current status plays no part. -/
theorem setStatus_spec (s : Store) (caller : Identity) (id : ObjectId) (newStatus : String) :
    ((setStatus s caller id newStatus).2.status = 404 ↔ ¬ ∃ d ∈ s.donations, d.id = id) ∧
    ((¬ ∃ d ∈ s.donations, d.id = id) →
      setStatus s caller id newStatus = (s, ⟨404, "Donation not found", none⟩)) ∧
    (∀ d, findDonation s id = some d →
      (setStatus s caller id newStatus).2 =
        ⟨200, "Donation updated successfully", some { d with status := newStatus }⟩ ∧
      findDonation (setStatus s caller id newStatus).1 id =
        some { d with status := newStatus } ∧
      (∀ k, k ≠ id → findDonation (setStatus s caller id newStatus).1 k = findDonation s k) ∧
      (∀ x : Donation, x.id ≠ id →
        (x ∈ (setStatus s caller id newStatus).1.donations ↔ x ∈ s.donations))) ∧
    (setStatus s caller id newStatus).1.requests = s.requests ∧
    (setStatus s caller id newStatus).1.users = s.users := by
  have hnone : (¬ ∃ d ∈ s.donations, d.id = id) ↔ findDonation s id = none := by
    unfold findDonation
    rw [List.find?_eq_none]
    simp
  refine ⟨?_, ?_, ?_, setStatus_requests s caller id newStatus,
    setStatus_users s caller id newStatus⟩
  · rw [hnone]
    cases h : findDonation s id with
    | none => simp [setStatus, h]
    | some d => simp [setStatus, h]
  · intro h
    rw [hnone] at h
    simp [setStatus, h]
  · intro d hd
    have hid := (findDonation_some hd).2
    have hout : setStatus s caller id newStatus =
        (writeDonation s (d.withStatus newStatus),
          ⟨200, "Donation updated successfully", some (d.withStatus newStatus)⟩) := by
      simp [setStatus, hd]
    rw [hout]
    refine ⟨rfl, ?_, ?_, ?_⟩
    · have := findDonation_writeDonation s (d.withStatus newStatus)
      rw [show (d.withStatus newStatus).id = d.id from rfl, hid, hd] at this
      exact this
    · intro k hk
      exact findDonation_writeDonation_ne s (d.withStatus newStatus) (hid ▸ hk)
    · intro x hx
      constructor
      · intro hmem
        rcases mem_writeDonation hmem with h | rfl
        · exact h
        · exact absurd hid hx
      · intro hmem
        refine mem_updateFirst_of_not hmem ?_
        have : x.id ≠ (d.withStatus newStatus).id := hid ▸ hx
        simpa using this

/-! ## C8: the status values a donation can take -/

/-- C8 at the failing input: after `alice` registers and creates a donation, a
`setStatus` call carrying `expired` is answered 200 and the reachable state
stores a donation whose status is outside `available`, `claimed`, `completed`. -/
theorem setStatus_stores_any_status :
    Reachable demoCrypto
      (run demoCrypto Store.empty
        [.register 10 aliceBody, .createDonation 20 aliceId soupBody,
          .setStatus aliceId 1 "expired"]) ∧
    (run demoCrypto Store.empty
        [.register 10 aliceBody, .createDonation 20 aliceId soupBody,
          .setStatus aliceId 1 "expired"]).donations.map Donation.status = ["expired"] ∧
    donationStatusEnum.contains "expired" = false :=
  ⟨reachable_run demoCrypto Reachable.init _, by decide, by decide⟩

/-! ## C9: `remove` -/

theorem eraseP_key_gone {α : Type} (key : α → Nat) {p : α → Bool} {l : List α} {k : Nat}
    (hn : (l.map key).Nodup) (hp : ∀ x ∈ l, p x = true → key x = k)
    (hex : ∃ a ∈ l, p a = true) : ∀ x ∈ l.eraseP p, key x ≠ k := by
  induction l with
  | nil => obtain ⟨a, ha, _⟩ := hex; cases ha
  | cons b l ih =>
    rw [List.map_cons, List.nodup_cons] at hn
    by_cases hb : p b = true
    · rw [List.eraseP_cons_of_pos hb]
      intro x hx hk
      have hkb := hp b (List.mem_cons_self _ _) hb
      exact hn.1 (hkb ▸ hk ▸ List.mem_map_of_mem key hx)
    · rw [List.eraseP_cons_of_neg hb]
      obtain ⟨a, ha, hpa⟩ := hex
      have hal : a ∈ l := by
        rcases List.mem_cons.mp ha with rfl | h
        · exact absurd hpa hb
        · exact h
      intro x hx
      rcases List.mem_cons.mp hx with rfl | h
      · intro hk
        have hka := hp a (List.mem_cons_of_mem _ hal) hpa
        exact hn.1 (hk ▸ hka ▸ List.mem_map_of_mem key hal)
      · exact ih hn.2 (fun y hy => hp y (List.mem_cons_of_mem _ hy)) ⟨a, hal, hpa⟩ x h

/-- C9: `remove` answers 200 exactly when the caller owns a stored donation with
the id; in every other case the answer is the same 404 `Donation not found`,
whether the id is unknown or the donation belongs to someone else, and the
database is unchanged; when it succeeds in a well-formed state the donations
afterwards are exactly those before with another id; requests and users are never
touched. -/
theorem remove_spec (s : Store) (caller : Identity) (id : ObjectId) :
    ((remove s caller id).2.status = 200 ↔ ownsDonation s caller id) ∧
    (¬ ownsDonation s caller id →
      remove s caller id = (s, ⟨404, "Donation not found", none⟩)) ∧
    (∀ (s2 : Store) (caller2 : Identity) (id2 : ObjectId),
      ¬ ownsDonation s caller id → ¬ ownsDonation s2 caller2 id2 →
      (remove s caller id).2 = (remove s2 caller2 id2).2) ∧
    (s.WF → ownsDonation s caller id →
      ∀ x, x ∈ (remove s caller id).1.donations ↔ x ∈ s.donations ∧ x.id ≠ id) ∧
    (remove s caller id).1.requests = s.requests ∧
    (remove s caller id).1.users = s.users := by
  have hfind : ∀ (t : Store) (who : Identity) (k : ObjectId),
      ownsDonation t who k ↔
        (t.donations.find? (fun d => d.id == k && d.donorId == who.userId)).isSome = true := by
    intro t who k
    rw [List.find?_isSome]
    simp [ownsDonation]
  have hmiss : ∀ (t : Store) (who : Identity) (k : ObjectId), ¬ ownsDonation t who k →
      remove t who k = (t, ⟨404, "Donation not found", none⟩) := by
    intro t who k hno
    rw [hfind] at hno
    cases h : t.donations.find? (fun d => d.id == k && d.donorId == who.userId) with
    | none => simp [remove, h]
    | some d => rw [h] at hno; simp at hno
  refine ⟨?_, hmiss s caller id, ?_, ?_, remove_requests s caller id, remove_users s caller id⟩
  · rw [hfind]
    cases h : s.donations.find? (fun d => d.id == id && d.donorId == caller.userId) with
    | none => simp [remove, h]
    | some d => simp [remove, h]
  · intro s2 caller2 id2 h1 h2
    rw [hmiss s caller id h1, hmiss s2 caller2 id2 h2]
  · intro hwf hown x
    have hex : ∃ a ∈ s.donations, (a.id == id && a.donorId == caller.userId) = true := by
      obtain ⟨d, hd, h1, h2⟩ := hown
      exact ⟨d, hd, by simp [h1, h2]⟩
    have hout : (remove s caller id).1.donations =
        s.donations.eraseP (fun d => d.id == id && d.donorId == caller.userId) := by
      rw [hfind] at hown
      cases h : s.donations.find? (fun d => d.id == id && d.donorId == caller.userId) with
      | none => rw [h] at hown; simp at hown
      | some d => simp [remove, h]
    rw [hout]
    constructor
    · intro hx
      refine ⟨List.mem_of_mem_eraseP hx, ?_⟩
      exact eraseP_key_gone Donation.id hwf.2.1 (fun y _ hy => by simp at hy; exact hy.1) hex x hx
    · intro ⟨hx, hne⟩
      exact (List.mem_eraseP_of_neg (by simp [hne])).mpr hx

/-- C9 at `alice` deleting her bread. -/
theorem remove_spec_witness :
    (demo.WF ∧ ownsDonation demo aliceId 2) ∧
    ∀ x, x ∈ (remove demo aliceId 2).1.donations ↔ x ∈ demo.donations ∧ x.id ≠ 2 :=
  ⟨⟨by decide, bread, by decide, by decide, by decide⟩,
    (remove_spec demo aliceId 2).2.2.2.1 (by decide) ⟨bread, by decide, by decide, by decide⟩⟩

/-! ## C10: `createDonation` and the public listing -/

section Later

theorem Donation.withStatus_self (d : Donation) : d.withStatus d.status = d := by
  cases d; rfl

theorem eq_of_key_eq {α : Type} (key : α → Nat) {l : List α} (h : (l.map key).Nodup)
    {a b : α} (ha : a ∈ l) (hb : b ∈ l) (hk : key a = key b) : a = b := by
  have h1 := find?_key_of_mem key h ha
  have h2 := find?_key_of_mem key h hb
  rw [hk, h2] at h1
  exact (Option.some.inj h1).symm

/-- The donations after `POST /api/donations`: those before, or those before
followed by one new donation. -/
theorem createDonation_donations (s : Store) (now : Nat) (caller : Identity)
    (b : DonationBody) :
    (createDonation s now caller b).1 = s ∨
    ∃ x, x.id = s.nextId ∧ (createDonation s now caller b).1.donations = s.donations ++ [x] ∧
      (createDonation s now caller b).1.nextId = s.nextId + 1 := by
  unfold createDonation
  split
  · exact Or.inl rfl
  · split
    · exact Or.inl rfl
    · dsimp only
      split
      · exact Or.inr ⟨_, rfl, rfl, rfl⟩
      · exact Or.inl rfl

theorem step_nextId_le (c : Crypto) (s : Store) (op : Op) : s.nextId ≤ (step c s op).nextId := by
  cases op with
  | register now b =>
    rw [step]; unfold register
    split
    · exact Nat.le_refl _
    · dsimp only
      split
      · exact Nat.le_succ _
      · exact Nat.le_refl _
  | login _ _ _ => exact Nat.le_refl _
  | createDonation now who b =>
    rw [step]
    rcases createDonation_donations s now who b with h | ⟨_, _, _, h⟩ <;> rw [h]
    exact Nat.le_succ _
  | listAvailableDonations _ => exact Nat.le_refl _
  | listOwnDonations _ => exact Nat.le_refl _
  | setStatus who k st =>
    rw [step]; unfold setStatus
    split <;> exact Nat.le_refl _
  | remove who k =>
    rw [step]; unfold remove
    split <;> exact Nat.le_refl _
  | createRequest now who k reason =>
    rw [step]; unfold createRequest
    split
    · exact Nat.le_refl _
    · split
      · exact Nat.le_refl _
      · split
        · exact Nat.le_refl _
        · split
          · exact Nat.le_refl _
          · dsimp only
            split
            · exact Nat.le_succ _
            · exact Nat.le_refl _
  | listOwnRequests _ => exact Nat.le_refl _
  | respond io who k st dr =>
    rw [step]
    rcases respondWith_store_cases io s who k st dr with
      h | ⟨_, _, _, _, _, _, h | ⟨_, h⟩⟩ <;> rw [h] <;> exact Nat.le_refl _

/-- One call changes nothing but the `status` of a donation that was already stored. -/
theorem step_donation_fields (c : Crypto) (s : Store) (op : Op) {d1 : Donation}
    (h1 : d1 ∈ (step c s op).donations) (hlt : d1.id < s.nextId) :
    ∃ d0 ∈ s.donations, d1 = d0.withStatus d1.status := by
  have same : d1 ∈ s.donations → ∃ d0 ∈ s.donations, d1 = d0.withStatus d1.status :=
    fun h => ⟨d1, h, (Donation.withStatus_self d1).symm⟩
  cases op with
  | register now b => rw [step, register_donations] at h1; exact same h1
  | login _ _ _ => exact same h1
  | createDonation now who b =>
    rw [step] at h1
    rcases createDonation_donations s now who b with h | ⟨x, hx, h, _⟩
    · rw [h] at h1; exact same h1
    · rw [h] at h1
      rcases List.mem_append.mp h1 with h2 | h2
      · exact same h2
      · rw [List.mem_singleton.mp h2, hx] at hlt
        exact absurd hlt (Nat.lt_irrefl _)
  | listAvailableDonations _ => exact same h1
  | listOwnDonations _ => exact same h1
  | setStatus who k st =>
    rw [step] at h1
    unfold setStatus at h1
    split at h1
    · exact same h1
    · next d hd =>
      rcases mem_writeDonation h1 with h2 | rfl
      · exact same h2
      · exact ⟨d, (findDonation_some hd).1, rfl⟩
  | remove who k =>
    rw [step] at h1
    unfold remove at h1
    split at h1
    · exact same h1
    · exact same (List.mem_of_mem_eraseP h1)
  | createRequest now who k reason =>
    rw [step, createRequest_donations] at h1; exact same h1
  | listOwnRequests _ => exact same h1
  | respond io who k st dr =>
    rw [step] at h1
    rcases respondWith_store_cases io s who k st dr with
      h | ⟨r, d, _, hd, _, _, h | ⟨_, h⟩⟩
    · rw [h] at h1; exact same h1
    · rw [h] at h1; exact same h1
    · rw [h] at h1
      rcases mem_writeDonation h1 with h2 | rfl
      · exact same h2
      · exact ⟨d, (findDonation_some hd).1, rfl⟩

/-- No sequence of calls changes anything but the `status` of a donation that was
already stored. -/
theorem run_donation_fields (c : Crypto) (s : Store) (ops : List Op) {d1 : Donation}
    (h1 : d1 ∈ (run c s ops).donations) (hlt : d1.id < s.nextId) :
    ∃ d0 ∈ s.donations, d1 = d0.withStatus d1.status := by
  induction ops generalizing s with
  | nil => exact ⟨d1, h1, (Donation.withStatus_self d1).symm⟩
  | cons op ops ih =>
    have hle := step_nextId_le c s op
    obtain ⟨d2, hd2, e2⟩ := ih (step c s op) h1 (Nat.lt_of_lt_of_le hlt hle)
    have hid : d2.id = d1.id := by rw [e2]; rfl
    obtain ⟨d0, hd0, e0⟩ := step_donation_fields c s op hd2 (hid ▸ hlt)
    refine ⟨d0, hd0, ?_⟩
    rw [e2, e0]
    rfl

end Later

/-- C10, refuted as stated: `alice` resolves to a user, yet `createDonation` with
an empty `title` persists nothing (500); the soup she creates is `available` but,
once she deletes it, it is in no later listing although its status never changed;
and while the database is not connected the listing is empty. -/
theorem createDonation_not_always_listed :
    findUser demo aliceId.userId = some alice ∧
    createDonation demo 50 aliceId { soupBody with title := "" } = (demo, serverError) ∧
    (findDonation (createDonation demo 50 aliceId soupBody).1 4).map Donation.status =
      some "available" ∧
    (listAvailableDonations 1
      (remove (createDonation demo 50 aliceId soupBody).1 aliceId 4).1).map
        (fun p => p.doc.id) = [2] ∧
    listAvailableDonations 0 (createDonation demo 50 aliceId soupBody).1 = [] := by
  decide

/-- C10, amended: in a well-formed state, if the caller resolves to no user
`createDonation` answers 404 and persists nothing; if the caller resolves to a user
and the body passes validation (whatever else it carries), exactly one donation is
appended, with status `available`, `donorId` the caller's id and `donorName` the
user's name; and in every later state in which a donation with that id is still
stored with status `available`, that document is the created one, unchanged, and
the listing contains it whenever the database is connected. A body that fails
validation persists nothing. -/
theorem createDonation_spec (c : Crypto) (s : Store) (now : Nat) (caller : Identity)
    (b : DonationBody) (hwf : s.WF) :
    (findUser s caller.userId = none →
      createDonation s now caller b = (s, ⟨404, "User not found", none⟩)) ∧
    (∀ user, findUser s caller.userId = some user → b.valid = true →
      ∃ d, (createDonation s now caller b).2 =
          ⟨201, "Donation created successfully", some d⟩ ∧
        (createDonation s now caller b).1.donations = s.donations ++ [d] ∧
        (createDonation s now caller b).1.users = s.users ∧
        (createDonation s now caller b).1.requests = s.requests ∧
        d.status = "available" ∧ d.donorId = caller.userId ∧ d.donorName = user.name ∧
        ∀ (ops : List Op) (d1 : Donation),
          d1 ∈ (run c (createDonation s now caller b).1 ops).donations → d1.id = d.id →
          d1.status = "available" →
          d1 = d ∧ ∀ readyState, isMongoConnected readyState = true →
            populate (run c (createDonation s now caller b).1 ops) d ∈
              listAvailableDonations readyState (run c (createDonation s now caller b).1 ops)) ∧
    (∀ user, findUser s caller.userId = some user → b.valid = false →
      createDonation s now caller b = (s, serverError)) := by
  refine ⟨?_, ?_, ?_⟩
  · intro hu
    simp [createDonation, hu]
  · intro user hu hb
    have huv := hwf.2.2.2.2.2.2.1 user (findUser_some hu).1
    have hname : requiredString user.name = true := by
      simp only [validateUser, userRequired, Bool.and_eq_true] at huv
      exact huv.1.1.1.1.1.1
    simp only [DonationBody.valid, Bool.and_eq_true] at hb
    obtain ⟨⟨⟨⟨⟨⟨hdate, h1⟩, h2⟩, h3⟩, h4⟩, h5⟩, h6⟩ := hb
    obtain ⟨expiry, hexp⟩ := Option.isSome_iff_exists.mp hdate
    have hval : validateDonation (newDonation s.nextId now user b expiry) = true := by
      have hav : donationStatusEnum.contains "available" = true := by decide
      simp only [validateDonation, donationRequired, newDonation, h1, h2, h3, h4, h5, h6,
        hname, hav, Bool.and_self]
    have hout : createDonation s now caller b =
        (insertDonation s (newDonation s.nextId now user b expiry),
          ⟨201, "Donation created successfully",
            some (newDonation s.nextId now user b expiry)⟩) := by
      simp only [createDonation, hu, hexp, hval]
      simp
    have hwf1 : (createDonation s now caller b).1.WF := createDonation_wf hwf now caller b
    rw [hout] at hwf1 ⊢
    refine ⟨newDonation s.nextId now user b expiry, rfl, rfl, rfl, rfl, rfl,
      (findUser_some hu).2, rfl, ?_⟩
    intro ops d1 hd1 hid hst
    obtain ⟨d0, hd0, e0⟩ := run_donation_fields c _ ops hd1
      (by rw [hid]; exact Nat.lt_succ_self s.nextId)
    have hd0id : d0.id = (newDonation s.nextId now user b expiry).id := by
      have : d0.id = d1.id := by rw [e0]; rfl
      rw [this, hid]
    have heq := eq_of_key_eq Donation.id hwf1.2.1 hd0
      (List.mem_append_right _ (List.mem_singleton_self _)) hd0id
    have hd1eq : d1 = newDonation s.nextId now user b expiry := by
      rw [e0, hst, heq]
      rfl
    refine ⟨hd1eq, ?_⟩
    intro readyState hconn
    exact mem_listAvailableDonations.mpr ⟨hconn, _, hd1eq ▸ hd1, rfl, rfl⟩
  · intro user hu hb
    cases hexp : b.expiryDate with
    | none => simp [createDonation, hu, hexp]
    | some expiry =>
      have hval : validateDonation (newDonation s.nextId now user b expiry) = false := by
        cases hv : validateDonation (newDonation s.nextId now user b expiry) with
        | false => rfl
        | true =>
          simp only [validateDonation, donationRequired, newDonation, Bool.and_eq_true] at hv
          obtain ⟨⟨⟨⟨⟨⟨⟨h1, h2⟩, h3⟩, h4⟩, h5⟩, h6⟩, _⟩, _⟩ := hv
          simp [DonationBody.valid, hexp, h1, h2, h3, h4, h5, h6] at hb
      simp only [createDonation, hu, hexp, hval]
      simp

/-- C10 amended, at `alice` creating the soup and then marking her bread as claimed. -/
theorem createDonation_spec_witness :
    (demo.WF ∧ findUser demo aliceId.userId = some alice ∧ soupBody.valid = true) ∧
    ∃ d, (createDonation demo 50 aliceId soupBody).2 =
        ⟨201, "Donation created successfully", some d⟩ ∧
      (createDonation demo 50 aliceId soupBody).1.donations = demo.donations ++ [d] ∧
      d.status = "available" ∧ d.donorId = aliceId.userId ∧ d.donorName = alice.name ∧
      populate (run demoCrypto (createDonation demo 50 aliceId soupBody).1
          [.setStatus aliceId 2 "claimed"]) d ∈
        listAvailableDonations 1 (run demoCrypto (createDonation demo 50 aliceId soupBody).1
          [.setStatus aliceId 2 "claimed"]) :=
  ⟨by decide,
    match (createDonation_spec demoCrypto demo 50 aliceId soupBody (by decide)).2.1 alice
      (by decide) (by decide) with
    | ⟨d, h1, h2, _, _, h5, h6, h7, h8⟩ =>
      ⟨d, h1, h2, h5, h6, h7,
        (h8 [.setStatus aliceId 2 "claimed"] d
          (by
            have hd : d ∈ (createDonation demo 50 aliceId soupBody).1.donations := by
              rw [h2]; exact List.mem_append_right _ (List.mem_singleton_self _)
            have hne : (d.id == (bread.withStatus "claimed").id) = false := by
              have h4 : some d = (createDonation demo 50 aliceId soupBody).2.payload := by
                rw [h1]
              have h9 : d = _ := Option.some.inj h4
              rw [h9]; decide
            exact mem_updateFirst_of_not hd hne)
          rfl h5).2 1 (by decide)⟩⟩

/-! ## C11: who may create a donation -/

/-- C11 at the failing input: `bob`, whose role is `recipient`, calls
`createDonation`; the call succeeds and the `donorId` of the created donation
resolves to a user whose role is `recipient`, not `donor`. -/
theorem createDonation_by_recipient :
    (findUser demo bobId.userId).map User.userType = some "recipient" ∧
    (createDonation demo 50 bobId soupBody).2.status = 201 ∧
    ((createDonation demo 50 bobId soupBody).2.payload.bind
      (fun d => findUser (createDonation demo 50 bobId soupBody).1 d.donorId)).map
        User.userType = some "recipient" := by
  decide

/-! ## C12: the request `createRequest` stores -/

/-- C12: when `createRequest` succeeds (201), the caller resolves to a user and the
id to a donation, exactly one request is appended, and it has status `pending`, no
`donorResponse`, the id and current title of that donation, the id, name, email and
phone of that user, and the given reason; donations and users are as before. -/
theorem createRequest_success (s : Store) (now : Nat) (caller : Identity)
    (donationId : ObjectId) (reason : String)
    (h : (createRequest s now caller donationId reason).2.status = 201) :
    ∃ user donation r,
      findUser s caller.userId = some user ∧ user.id = caller.userId ∧
      findDonation s donationId = some donation ∧ donation.id = donationId ∧
      (createRequest s now caller donationId reason).2.payload = some r ∧
      (createRequest s now caller donationId reason).1.requests = s.requests ++ [r] ∧
      (createRequest s now caller donationId reason).1.donations = s.donations ∧
      (createRequest s now caller donationId reason).1.users = s.users ∧
      r.status = "pending" ∧ r.donorResponse = none ∧
      r.donationId = donation.id ∧ r.donationTitle = donation.title ∧
      r.recipientId = user.id ∧ r.recipientName = user.name ∧
      r.recipientEmail = user.email ∧ r.recipientPhone = user.phone ∧
      r.reason = reason := by
  cases hu : findUser s caller.userId with
  | none => simp [createRequest, hu] at h
  | some user =>
    by_cases hrole : user.userType = "recipient"
    · cases hd : findDonation s donationId with
      | none => simp [createRequest, hu, hrole, hd] at h
      | some donation =>
        by_cases hav : donation.status = "available"
        · cases hv : validateRequest (newRequest s.nextId now user donation reason) with
          | false =>
            simp only [createRequest, hu, hrole, hd, hav, hv] at h
            simp [serverError] at h
          | true =>
            have hout : createRequest s now caller donationId reason =
                (insertRequest s (newRequest s.nextId now user donation reason),
                  ⟨201, "Food request sent successfully",
                    some (newRequest s.nextId now user donation reason)⟩) := by
              simp only [createRequest, hu, hrole, hd, hav, hv]
              simp
            rw [hout]
            exact ⟨user, donation, newRequest s.nextId now user donation reason, rfl,
              (findUser_some hu).2, rfl, (findDonation_some hd).2, rfl, rfl, rfl, rfl, rfl,
              rfl, rfl, rfl, rfl, rfl, rfl, rfl, rfl⟩
        · simp [createRequest, hu, hrole, hd, hav] at h
    · simp [createRequest, hu, hrole] at h

/-- C12 at `bob` requesting the bread. -/
theorem createRequest_success_witness :
    (createRequest demo 40 bobId 2 "please").2.status = 201 ∧
    ∃ user donation r,
      findUser demo bobId.userId = some user ∧ user.id = bobId.userId ∧
      findDonation demo 2 = some donation ∧ donation.id = 2 ∧
      (createRequest demo 40 bobId 2 "please").2.payload = some r ∧
      (createRequest demo 40 bobId 2 "please").1.requests = demo.requests ++ [r] ∧
      (createRequest demo 40 bobId 2 "please").1.donations = demo.donations ∧
      (createRequest demo 40 bobId 2 "please").1.users = demo.users ∧
      r.status = "pending" ∧ r.donorResponse = none ∧
      r.donationId = donation.id ∧ r.donationTitle = donation.title ∧
      r.recipientId = user.id ∧ r.recipientName = user.name ∧
      r.recipientEmail = user.email ∧ r.recipientPhone = user.phone ∧
      r.reason = "please" :=
  ⟨by decide, createRequest_success demo 40 bobId 2 "please" (by decide)⟩

/-! ## C13: the public listing -/

section Sorting

variable {α : Type}

theorem newestFirst_perm (createdAt : α → Nat) (l : List α) :
    (newestFirst createdAt l).Perm l :=
  List.perm_insertionSort _ l

theorem newestFirst_sorted (createdAt : α → Nat) (l : List α) :
    (newestFirst createdAt l).Pairwise (fun a b => createdAt b ≤ createdAt a) := by
  haveI : IsTotal α (fun a b => createdAt b ≤ createdAt a) :=
    ⟨fun a b => Nat.le_total (createdAt b) (createdAt a)⟩
  haveI : IsTrans α (fun a b => createdAt b ≤ createdAt a) :=
    ⟨fun _ _ _ hab hbc => Nat.le_trans hbc hab⟩
  exact List.sorted_insertionSort (fun a b => createdAt b ≤ createdAt a) l

theorem listAvailableDonations_docs {readyState : Nat} (s : Store)
    (h : isMongoConnected readyState = true) :
    (listAvailableDonations readyState s).map PopulatedDonation.doc =
      newestFirst Donation.createdAt (s.donations.filter (fun d => d.status == "available")) := by
  unfold listAvailableDonations
  rw [h]
  simp only [Bool.not_true, Bool.false_eq_true, if_false, List.map_map]
  exact List.map_id'' (fun d => rfl) _

end Sorting

/-- C13: when the database is connected, the documents `listAvailableDonations()`
answers with are the stored donations whose status is `available`, each as often
as it is stored and no other, newest first; when it is not connected the answer is
the empty list; the call leaves the database as it is. -/
theorem listAvailableDonations_spec (c : Crypto) (readyState : Nat) (s : Store) :
    (isMongoConnected readyState = true →
      ((listAvailableDonations readyState s).map PopulatedDonation.doc).Perm
        (s.donations.filter (fun d => d.status == "available")) ∧
      (∀ d, d ∈ (listAvailableDonations readyState s).map PopulatedDonation.doc ↔
        d ∈ s.donations ∧ d.status = "available") ∧
      ((listAvailableDonations readyState s).map PopulatedDonation.doc).Pairwise
        (fun a b => b.createdAt ≤ a.createdAt)) ∧
    (isMongoConnected readyState = false → listAvailableDonations readyState s = []) ∧
    step c s (.listAvailableDonations readyState) = s := by
  refine ⟨?_, ?_, rfl⟩
  · intro h
    rw [listAvailableDonations_docs s h]
    refine ⟨newestFirst_perm _ _, ?_, newestFirst_sorted _ _⟩
    intro d
    rw [mem_newestFirst]
    simp
  · intro h
    simp [listAvailableDonations, h]

/-- C13 at the example database, connected. -/
theorem listAvailableDonations_spec_witness :
    isMongoConnected 1 = true ∧
    ((listAvailableDonations 1 demo).map PopulatedDonation.doc).Perm
      (demo.donations.filter (fun d => d.status == "available")) ∧
    (∀ d, d ∈ (listAvailableDonations 1 demo).map PopulatedDonation.doc ↔
      d ∈ demo.donations ∧ d.status = "available") ∧
    ((listAvailableDonations 1 demo).map PopulatedDonation.doc).Pairwise
      (fun a b => b.createdAt ≤ a.createdAt) :=
  ⟨by decide, (listAvailableDonations_spec demoCrypto 1 demo).1 (by decide)⟩

/-! ## C14: the requests of a caller -/

theorem joinOwnRequests_eq (s : Store) (userId : ObjectId) :
    s.requests.filter (fun r =>
      ((s.donations.filter (fun d => d.donorId == userId)).map (fun d => d.id)).contains
        r.donationId) = joinOwnRequests s userId := by
  unfold joinOwnRequests
  apply List.filter_congr
  intro r _
  rw [Bool.eq_iff_iff]
  simp only [List.contains_eq_any_beq, List.any_eq_true, List.mem_map, List.mem_filter,
    Bool.and_eq_true, beq_iff_eq]
  constructor
  · rintro ⟨k, ⟨d, ⟨hd, ho⟩, rfl⟩, hid⟩
    exact ⟨d, hd, hid.symm, ho⟩
  · rintro ⟨d, hd, hid, ho⟩
    exact ⟨d.id, ⟨d, ⟨hd, ho⟩, rfl⟩, hid.symm⟩

/-- C14: for a caller who resolves to a user, `listOwnRequests` answers 200 with,
if the role is `donor`, exactly the requests whose `donationId` is the id of a
donation whose `donorId` is the caller, and, if the role is `recipient`, exactly
the requests whose `recipientId` is the caller, in both cases newest first; the
donor's list is the two-step computation of the handler and equals the direct join
of requests with the caller's donations. -/
theorem listOwnRequests_spec (s : Store) (caller : Identity) (user : User)
    (hu : findUser s caller.userId = some user) :
    (user.userType = "donor" →
      ∃ l, listOwnRequests s caller = ⟨200, "", some l⟩ ∧
        (∀ r, r ∈ l ↔ r ∈ s.requests ∧
          ∃ d ∈ s.donations, d.id = r.donationId ∧ d.donorId = caller.userId) ∧
        l.Pairwise (fun a b => b.createdAt ≤ a.createdAt) ∧
        l = newestFirst Request.createdAt (joinOwnRequests s caller.userId) ∧
        l.Perm (joinOwnRequests s caller.userId)) ∧
    (user.userType = "recipient" →
      ∃ l, listOwnRequests s caller = ⟨200, "", some l⟩ ∧
        (∀ r, r ∈ l ↔ r ∈ s.requests ∧ r.recipientId = caller.userId) ∧
        l.Pairwise (fun a b => b.createdAt ≤ a.createdAt) ∧
        l.Perm (s.requests.filter (fun r => r.recipientId == caller.userId))) := by
  have hid := (findUser_some hu).2
  constructor
  · intro hrole
    refine ⟨newestFirst Request.createdAt (joinOwnRequests s caller.userId), ?_, ?_,
      newestFirst_sorted _ _, rfl, newestFirst_perm _ _⟩
    · simp only [listOwnRequests, hu, hrole, beq_self_eq_true, if_true]
      rw [joinOwnRequests_eq, hid]
    · intro r
      rw [mem_newestFirst]
      simp [joinOwnRequests]
  · intro hrole
    refine ⟨newestFirst Request.createdAt
      (s.requests.filter (fun r => r.recipientId == caller.userId)), ?_, ?_,
      newestFirst_sorted _ _, newestFirst_perm _ _⟩
    · have hne : (user.userType == "donor") = false := by rw [hrole]; decide
      simp only [listOwnRequests, hu, hne, hid]
      simp
    · intro r
      rw [mem_newestFirst]
      simp

/-- C14 at `alice`, a donor, in the example database. -/
theorem listOwnRequests_spec_witness :
    findUser demo aliceId.userId = some alice ∧ alice.userType = "donor" ∧
    ∃ l, listOwnRequests demo aliceId = ⟨200, "", some l⟩ ∧
      (∀ r, r ∈ l ↔ r ∈ demo.requests ∧
        ∃ d ∈ demo.donations, d.id = r.donationId ∧ d.donorId = aliceId.userId) ∧
      l.Pairwise (fun a b => b.createdAt ≤ a.createdAt) ∧
      l = newestFirst Request.createdAt (joinOwnRequests demo aliceId.userId) ∧
      l.Perm (joinOwnRequests demo aliceId.userId) :=
  ⟨by decide, by decide, (listOwnRequests_spec demo aliceId alice (by decide)).1 (by decide)⟩

/-! ## C15: the bearer-token middleware -/

/-- C15: for each of the seven protected routes, a call without a token (no
`Authorization` header, or none with a second non-empty part) is answered 401 and a
call whose token fails verification is answered 403, in both cases with the
database unchanged and without the handler being run; otherwise the answer and the
database are those of the handler run with the decoded identity. -/
theorem serve_authentication (c : Crypto) (s : Store) (now : Nat)
    (authorization : Option String) (call : ProtectedCall) :
    (bearerToken none = none) ∧
    (bearerToken authorization = none →
      serve c s now authorization call = (s, ⟨401, "Access token required", none⟩)) ∧
    (∀ token, bearerToken authorization = some token → c.verify token now = none →
      serve c s now authorization call = (s, ⟨403, "Invalid token", none⟩)) ∧
    (∀ token user, bearerToken authorization = some token → c.verify token now = some user →
      serve c s now authorization call = handle s now user call) := by
  refine ⟨rfl, ?_, ?_, ?_⟩
  · intro h
    simp [serve, authenticateToken, h]
  · intro token h hv
    simp [serve, authenticateToken, h, hv]
  · intro token user h hv
    simp [serve, authenticateToken, h, hv]

/-! ## C16: `register` -/

section Credentials

theorem find?_email_none {s : Store} {email : String} :
    s.users.find? (fun u => u.email == email) = none ↔ ¬ ∃ u ∈ s.users, u.email = email := by
  rw [List.find?_eq_none]
  simp

theorem validateUser_new (c : Crypto) (hc : c.Lawful) (id now : Nat) (b : RegisterBody) :
    validateUser
      { id := id, name := b.name, email := b.email, password := c.hash b.password 10,
        phone := b.phone, address := b.address, userType := b.userType, createdAt := now } =
      b.valid := by
  have hp : requiredString (c.hash b.password 10) = true := by
    simpa [requiredString] using (hc.1 b.password 10).1
  have ht : userTypeEnum.contains b.userType = true → requiredString b.userType = true := by
    intro h
    have : b.userType = "donor" ∨ b.userType = "recipient" := by
      simpa [userTypeEnum] using h
    rcases this with h1 | h1 <;> rw [h1] <;> decide
  cases he : userTypeEnum.contains b.userType with
  | false => simp only [validateUser, RegisterBody.valid, he, Bool.and_false]
  | true =>
    simp only [validateUser, userRequired, RegisterBody.valid, he, hp, ht he, Bool.and_true]

end Credentials

/-- C16, refuted as stated: no user has the email `carol@example.org`, yet
registering with it and the role `admin` does not succeed: the answer is 500 and no
user is added. -/
theorem register_new_email_fails :
    (¬ ∃ u ∈ demo.users, u.email = "carol@example.org") ∧
    register demoCrypto demo 60
      ⟨"Carol", "carol@example.org", "pw", "555-0102", "3 Mill Lane", "admin"⟩ =
      (demo, serverError) := by
  decide

/-- C16, amended: `register` answers 400 and changes nothing whenever a user with
the email is stored; with an email not yet stored and a body that passes the
validators of the schema it answers 201 and appends exactly one user, whose stored
password is the hash and not the plain password, together with the projection of
that user and a token that verifies, until it expires, to an identity whose userId
is the id of the stored user; with an email not yet stored and a body that fails
validation it answers 500 and changes nothing. -/
theorem register_spec (c : Crypto) (s : Store) (now : Nat) (b : RegisterBody)
    (hc : c.Lawful) :
    ((∃ u ∈ s.users, u.email = b.email) →
      register c s now b = (s, ⟨400, "User already exists", none⟩)) ∧
    ((¬ ∃ u ∈ s.users, u.email = b.email) → b.valid = true →
      ∃ u token,
        register c s now b =
          (insertUser s u, ⟨201, "User registered successfully",
            some ⟨token, ⟨u.id, u.name, u.email, u.userType⟩⟩⟩) ∧
        (register c s now b).1.users = s.users ++ [u] ∧
        (register c s now b).1.donations = s.donations ∧
        (register c s now b).1.requests = s.requests ∧
        u.password = c.hash b.password 10 ∧ u.password ≠ b.password ∧
        u.name = b.name ∧ u.email = b.email ∧ u.phone = b.phone ∧
        u.address = b.address ∧ u.userType = b.userType ∧
        (∀ t1, now ≤ t1 → t1 < now + tokenLifetime →
          (c.verify token t1).map Identity.userId = some u.id)) ∧
    ((¬ ∃ u ∈ s.users, u.email = b.email) → b.valid = false →
      register c s now b = (s, serverError)) := by
  refine ⟨?_, ?_, ?_⟩
  · intro hex
    cases h : s.users.find? (fun u => u.email == b.email) with
    | none => exact absurd hex (find?_email_none.mp h)
    | some u => simp [register, h]
  · intro hno hv
    have hfind := find?_email_none.mpr hno
    have hval := validateUser_new c hc s.nextId now b
    rw [hv] at hval
    have hout : register c s now b =
        (insertUser s
            { id := s.nextId, name := b.name, email := b.email,
              password := c.hash b.password 10, phone := b.phone, address := b.address,
              userType := b.userType, createdAt := now },
          ⟨201, "User registered successfully",
            some ⟨c.sign ⟨s.nextId, b.email⟩ now, ⟨s.nextId, b.name, b.email, b.userType⟩⟩⟩) := by
      simp only [register, hfind, hval]
      simp
    rw [hout]
    refine ⟨_, _, rfl, rfl, rfl, rfl, rfl, (hc.1 b.password 10).2, rfl, rfl, rfl, rfl, rfl, ?_⟩
    intro t1 h1 h2
    rw [hc.2 ⟨s.nextId, b.email⟩ now t1 h1 h2]
    rfl
  · intro hno hv
    have hfind := find?_email_none.mpr hno
    have hval := validateUser_new c hc s.nextId now b
    rw [hv] at hval
    simp only [register, hfind, hval]
    simp

section DemoCrypto

theorem dropWhile_replicate_cons (n : Nat) (rest : List Char) :
    (List.replicate n 'u' ++ ':' :: rest).dropWhile (fun x => x == 'u') = ':' :: rest := by
  induction n with
  | zero => rfl
  | succ n ih =>
    rw [List.replicate_succ, List.cons_append, List.dropWhile_cons_of_pos (by decide)]
    exact ih

theorem takeWhile_replicate_cons (n : Nat) (rest : List Char) :
    ((List.replicate n 'u' ++ ':' :: rest).takeWhile (fun x => x == 'u')).length = n := by
  induction n with
  | zero => rfl
  | succ n ih =>
    rw [List.replicate_succ, List.cons_append, List.takeWhile_cons_of_pos (by decide),
      List.length_cons, ih]

/-- The stand-in for the credential libraries has the properties the handlers
rely on. -/
theorem demoCrypto_lawful : demoCrypto.Lawful := by
  constructor
  · intro password rounds
    have hlen : (demoCrypto.hash password rounds).length = 7 + password.length := by
      show ("bcrypt:" ++ password).length = _
      rw [String.length_append]
      rfl
    constructor
    · intro h
      rw [h] at hlen
      simp at hlen
      omega
    · intro h
      rw [h] at hlen
      omega
  · intro payload t t1 _ _
    show (match (List.replicate payload.userId 'u' ++ ':' :: payload.email.data).dropWhile
        (fun x => x == 'u') with
      | ':' :: email =>
        some (⟨((List.replicate payload.userId 'u' ++ ':' :: payload.email.data).takeWhile
          (fun x => x == 'u')).length, String.mk email⟩ : Identity)
      | _ => none) = some payload
    rw [dropWhile_replicate_cons, takeWhile_replicate_cons]
    rfl

end DemoCrypto

/-- C16 amended, at `bob` registering in the database that holds only `alice`. -/
theorem register_spec_witness :
    (demoCrypto.Lawful ∧ (¬ ∃ u ∈ [alice], u.email = bobBody.email) ∧ bobBody.valid = true) ∧
    ∃ u token,
      register demoCrypto ⟨[alice], [], [], 1⟩ 11 bobBody =
        (insertUser ⟨[alice], [], [], 1⟩ u, ⟨201, "User registered successfully",
          some ⟨token, ⟨u.id, u.name, u.email, u.userType⟩⟩⟩) ∧
      u.password ≠ bobBody.password ∧
      (∀ t1, 11 ≤ t1 → t1 < 11 + tokenLifetime →
        (demoCrypto.verify token t1).map Identity.userId = some u.id) :=
  ⟨⟨demoCrypto_lawful, by decide, by decide⟩,
    match (register_spec demoCrypto ⟨[alice], [], [], 1⟩ 11 bobBody demoCrypto_lawful).2.1
      (by decide) (by decide) with
    | ⟨u, token, h1, _, _, _, _, h6, _, _, _, _, _, h12⟩ => ⟨u, token, h1, h6, h12⟩⟩

/-! ## C17: `login` -/

section Emails

theorem register_users (c : Crypto) (s : Store) (now : Nat) (b : RegisterBody) :
    (register c s now b).1.users = s.users ∨
    ((¬ ∃ u ∈ s.users, u.email = b.email) ∧
      ∃ u, u.email = b.email ∧ (register c s now b).1.users = s.users ++ [u]) := by
  cases h : s.users.find? (fun u => u.email == b.email) with
  | some u => left; simp [register, h]
  | none =>
    have hno := find?_email_none.mp h
    unfold register
    rw [h]
    dsimp only
    split
    · exact Or.inr ⟨hno, _, rfl, rfl⟩
    · exact Or.inl rfl

theorem step_emails_nodup (c : Crypto) {s : Store} (h : (s.users.map User.email).Nodup)
    (op : Op) : ((step c s op).users.map User.email).Nodup := by
  cases op with
  | register now b =>
    rw [step]
    rcases register_users c s now b with h1 | ⟨hno, u, hu, h1⟩ <;> rw [h1]
    · exact h
    · rw [List.map_append, List.nodup_append]
      refine ⟨h, by simp, ?_⟩
      intro e he1 he2
      simp only [List.map_cons, List.map_nil, List.mem_singleton] at he2
      obtain ⟨v, hv, rfl⟩ := List.mem_map.mp he1
      exact hno ⟨v, hv, he2.trans hu⟩
  | login _ _ _ => exact h
  | createDonation now who b => rw [step, createDonation_users]; exact h
  | listAvailableDonations _ => exact h
  | listOwnDonations _ => exact h
  | setStatus who k st => rw [step, setStatus_users]; exact h
  | remove who k => rw [step, remove_users]; exact h
  | createRequest now who k reason => rw [step, createRequest_users]; exact h
  | listOwnRequests _ => exact h
  | respond io who k st dr => rw [step, respondWith_users]; exact h

/-- In every state the server can be in, no two users have the same email. -/
theorem reachable_emails_nodup (c : Crypto) {s : Store} (h : Reachable c s) :
    (s.users.map User.email).Nodup := by
  induction h with
  | init => exact List.nodup_nil
  | step op _ ih => exact step_emails_nodup c ih op

end Emails

/-- C17: in a state in which emails are unique, `login` answers 200 exactly when a
stored user has the email and `compare` accepts the password against that user's
stored hash; it then carries the projection of that user and a token that verifies,
until it expires, to an identity whose userId is that user's id; in every other
case, an unknown email as well as a wrong password, the answer is the same 400
`Invalid credentials`; and the call leaves the database as it is. -/
theorem login_spec (c : Crypto) (s : Store) (now : Nat) (email password : String)
    (hc : c.Lawful) (hemails : (s.users.map User.email).Nodup) :
    ((login c s now email password).status = 200 ↔
      ∃ u ∈ s.users, u.email = email ∧ c.compare password u.password = true) ∧
    (∀ u ∈ s.users, u.email = email → c.compare password u.password = true →
      ∃ token, login c s now email password =
          ⟨200, "Login successful", some ⟨token, ⟨u.id, u.name, u.email, u.userType⟩⟩⟩ ∧
        ∀ t1, now ≤ t1 → t1 < now + tokenLifetime →
          (c.verify token t1).map Identity.userId = some u.id) ∧
    ((¬ ∃ u ∈ s.users, u.email = email ∧ c.compare password u.password = true) →
      login c s now email password = ⟨400, "Invalid credentials", none⟩) ∧
    ((¬ ∃ u ∈ s.users, u.email = email) →
      ∀ u ∈ s.users, c.compare password u.password = false →
        login c s now email password = login c s now u.email password) ∧
    step c s (.login now email password) = s := by
  have found : ∀ u ∈ s.users, u.email = email →
      s.users.find? (fun v => v.email == email) = some u := by
    intro u hu he
    cases h : s.users.find? (fun v => v.email == email) with
    | none => exact absurd ⟨u, hu, he⟩ (find?_email_none.mp h)
    | some v =>
      have hv := List.mem_of_find?_eq_some h
      have hve : v.email = email := by simpa using List.find?_some h
      rw [List.inj_on_of_nodup_map hemails hv hu (hve.trans he.symm)]
  have ok : ∀ u ∈ s.users, u.email = email → c.compare password u.password = true →
      login c s now email password =
        ⟨200, "Login successful",
          some ⟨c.sign ⟨u.id, u.email⟩ now, ⟨u.id, u.name, u.email, u.userType⟩⟩⟩ := by
    intro u hu he hcmp
    simp [login, found u hu he, hcmp]
  have bad : (¬ ∃ u ∈ s.users, u.email = email ∧ c.compare password u.password = true) →
      login c s now email password = ⟨400, "Invalid credentials", none⟩ := by
    intro hno
    cases h : s.users.find? (fun v => v.email == email) with
    | none => simp [login, h]
    | some v =>
      have hv := List.mem_of_find?_eq_some h
      have hve : v.email = email := by simpa using List.find?_some h
      have hcmp : c.compare password v.password = false := by
        cases hx : c.compare password v.password with
        | false => rfl
        | true => exact absurd ⟨v, hv, hve, hx⟩ hno
      simp [login, h, hcmp]
  refine ⟨?_, ?_, bad, ?_, rfl⟩
  · constructor
    · intro h200
      by_contra hno
      rw [bad hno] at h200
      simp at h200
    · rintro ⟨u, hu, he, hcmp⟩
      rw [ok u hu he hcmp]
  · intro u hu he hcmp
    refine ⟨_, ok u hu he hcmp, ?_⟩
    intro t1 h1 h2
    rw [hc.2 ⟨u.id, u.email⟩ now t1 h1 h2]
    rfl
  · intro hno u hu hcmp
    rw [bad (fun ⟨v, hv, he, _⟩ => hno ⟨v, hv, he⟩)]
    have : ¬ ∃ v ∈ s.users, v.email = u.email ∧ c.compare password v.password = true := by
      rintro ⟨v, hv, he, hx⟩
      rw [List.inj_on_of_nodup_map hemails hv hu he, hcmp] at hx
      cases hx
    cases h : s.users.find? (fun v => v.email == u.email) with
    | none => simp [login, h]
    | some v =>
      have hv := List.mem_of_find?_eq_some h
      have hve : v.email = u.email := by simpa using List.find?_some h
      have hcv : c.compare password v.password = false := by
        cases hx : c.compare password v.password with
        | false => rfl
        | true => exact absurd ⟨v, hv, hve, hx⟩ this
      simp [login, h, hcv]

/-- C17 at a database holding the user `bob` registered with `demoCrypto`. -/
theorem login_spec_witness :
    (demoCrypto.Lawful ∧
      ((register demoCrypto Store.empty 11 bobBody).1.users.map User.email).Nodup) ∧
    ((login demoCrypto (register demoCrypto Store.empty 11 bobBody).1 12 "bob@example.org"
        "hunter2").status = 200 ↔
      ∃ u ∈ (register demoCrypto Store.empty 11 bobBody).1.users,
        u.email = "bob@example.org" ∧ demoCrypto.compare "hunter2" u.password = true) ∧
    (login demoCrypto (register demoCrypto Store.empty 11 bobBody).1 12 "bob@example.org"
        "hunter2").status = 200 ∧
    (login demoCrypto (register demoCrypto Store.empty 11 bobBody).1 12 "bob@example.org"
        "wrong").status = 400 :=
  ⟨⟨demoCrypto_lawful, by decide⟩,
    (login_spec demoCrypto (register demoCrypto Store.empty 11 bobBody).1 12 "bob@example.org"
      "hunter2" demoCrypto_lawful (by decide)).1, by decide, by decide⟩

/-! ## C18: the status of validation failures -/

/-- C18, refuted as stated: a bad role is not answered 400. `alice`, a donor, who
calls `createRequest` is answered 403, and registering with the role `admin` is
answered 500. -/
theorem bad_role_not_400 :
    (findUser demo aliceId.userId).map User.userType = some "donor" ∧
    (createRequest demo 40 aliceId 2 "need food").2.status = 403 ∧
    (register demoCrypto demo 60 carolBody).2.status = 500 := by
  decide

/-- C18, amended: registering a duplicate email is answered 400 and creating a
request against a donation that is not `available` is answered 400; a caller whose
role is not `recipient` who creates a request is answered 403, and registering a
new email with a role outside `donor`, `recipient` is answered 500. -/
theorem validation_statuses (c : Crypto) (s : Store) (now : Nat) (b : RegisterBody)
    (caller : Identity) (donationId : ObjectId) (reason : String) :
    ((∃ u ∈ s.users, u.email = b.email) → (register c s now b).2.status = 400) ∧
    (∀ user d, findUser s caller.userId = some user → user.userType = "recipient" →
      findDonation s donationId = some d → d.status ≠ "available" →
      (createRequest s now caller donationId reason).2.status = 400) ∧
    (∀ user, findUser s caller.userId = some user → user.userType ≠ "recipient" →
      (createRequest s now caller donationId reason).2.status = 403) ∧
    ((¬ ∃ u ∈ s.users, u.email = b.email) → userTypeEnum.contains b.userType = false →
      (register c s now b).2.status = 500) := by
  refine ⟨?_, ?_, ?_, ?_⟩
  · intro hex
    cases h : s.users.find? (fun u => u.email == b.email) with
    | none => exact absurd hex (find?_email_none.mp h)
    | some u => simp [register, h]
  · intro user d hu hrole hd hav
    simp [createRequest, hu, hrole, hd, hav]
  · intro user hu hrole
    simp [createRequest, hu, hrole]
  · intro hno henum
    have hfind := find?_email_none.mpr hno
    simp only [register, hfind, validateUser, henum, Bool.and_false]
    simp [serverError]

/-- C18 amended, at the example database. -/
theorem validation_statuses_witness :
    ((∃ u ∈ demo.users, u.email = bobBody.email) ∧
      (register demoCrypto demo 60 bobBody).2.status = 400) ∧
    ((¬ ∃ u ∈ demo.users, u.email = carolBody.email) ∧
      userTypeEnum.contains carolBody.userType = false ∧
      (register demoCrypto demo 60 carolBody).2.status = 500) ∧
    (findUser demo aliceId.userId = some alice ∧ alice.userType ≠ "recipient" ∧
      (createRequest demo 40 aliceId 2 "need food").2.status = 403) :=
  ⟨⟨⟨bob, by decide, by decide⟩,
      (validation_statuses demoCrypto demo 60 bobBody aliceId 2 "need food").1
        ⟨bob, by decide, by decide⟩⟩,
    ⟨by decide, by decide,
      (validation_statuses demoCrypto demo 60 carolBody aliceId 2 "need food").2.2.2
        (by decide) (by decide)⟩,
    ⟨by decide, by decide,
      (validation_statuses demoCrypto demo 60 bobBody aliceId 2 "need food").2.2.1 alice
        (by decide) (by decide)⟩⟩

/-! ## C19: accepting two requests for one donation -/

/-- In a well-formed state, the owner's `respond` with status `accepted` writes the
request and then the donation. -/
theorem respond_accepted_eq {s : Store} (hwf : s.WF) {caller : Identity} {r : Request}
    {d : Donation} (hr : r ∈ s.requests) (hd : findDonation s r.donationId = some d)
    (ho : d.donorId = caller.userId) (donorResponse : Option String) :
    respond s caller r.id "accepted" donorResponse =
      (writeDonation (writeRequest s (r.assign "accepted" donorResponse))
          (d.withStatus "claimed"),
        ⟨200, "Request updated successfully", some (r.assign "accepted" donorResponse)⟩) := by
  have hv : (validateRequest (r.assign "accepted" donorResponse) && true) = true := by
    rw [Bool.and_true]
    exact validateRequest_assign (hwf.2.2.2.2.2.2.2.2 r hr) (by decide) donorResponse
  have hw : (validateDonation (d.withStatus "claimed") && true) = true := by
    rw [Bool.and_true]
    exact validateDonation_withStatus (hwf.2.2.2.2.2.2.2.1 d (findDonation_some hd).1)
      (by decide)
  exact respondWith_accepted ⟨true, true⟩ s caller r.id donorResponse
    (findRequest_of_mem hwf hr) hd ho hv hw

/-- C19: a state the server can reach holds two different requests for the same
donation that both have status `accepted`; and in every well-formed state with two
different stored requests for a donation the caller owns, once the caller has
accepted the first (the donation being then `claimed`), the caller's `respond` with
status `accepted` on the second still answers 200, and both requests are then
`accepted`. -/
theorem double_acceptance :
    (Reachable demoCrypto (run demoCrypto Store.empty twoAcceptances) ∧
      (run demoCrypto Store.empty twoAcceptances).requests.map
        (fun r => (r.id, r.donationId, r.status)) =
          [(3, 2, "accepted"), (4, 2, "accepted")]) ∧
    ∀ (s : Store) (caller : Identity) (r1 r2 : Request) (d : Donation)
      (dr1 dr2 : Option String),
      s.WF → r1 ∈ s.requests → r2 ∈ s.requests → r1.id ≠ r2.id → d ∈ s.donations →
      r1.donationId = d.id → r2.donationId = d.id → d.donorId = caller.userId →
      (findDonation (respond s caller r1.id "accepted" dr1).1 d.id).map Donation.status =
        some "claimed" ∧
      (respond (respond s caller r1.id "accepted" dr1).1 caller r2.id "accepted" dr2).2.status =
        200 ∧
      (findRequest (respond (respond s caller r1.id "accepted" dr1).1 caller r2.id "accepted"
        dr2).1 r1.id).map Request.status = some "accepted" ∧
      (findRequest (respond (respond s caller r1.id "accepted" dr1).1 caller r2.id "accepted"
        dr2).1 r2.id).map Request.status = some "accepted" := by
  refine ⟨⟨reachable_run demoCrypto Reachable.init _, by decide⟩, ?_⟩
  intro s caller r1 r2 d dr1 dr2 hwf h1 h2 hne hd hr1 hr2 ho
  have hfd1 : findDonation s r1.donationId = some d := hr1 ▸ findDonation_of_mem hwf hd
  have e1 := respond_accepted_eq hwf h1 hfd1 ho dr1
  have hwf1 : (respond s caller r1.id "accepted" dr1).1.WF :=
    respondWith_wf ⟨true, true⟩ hwf caller r1.id "accepted" dr1
  rw [e1] at hwf1 ⊢
  -- the state after the first acceptance
  have hfr1 : findRequest (writeRequest s (r1.assign "accepted" dr1)) r1.id =
      some (r1.assign "accepted" dr1) := by
    have := findRequest_writeRequest s (r1.assign "accepted" dr1)
    rw [show (r1.assign "accepted" dr1).id = r1.id from rfl, findRequest_of_mem hwf h1] at this
    exact this
  have hfdone : findDonation (writeDonation (writeRequest s (r1.assign "accepted" dr1))
      (d.withStatus "claimed")) d.id = some (d.withStatus "claimed") := by
    have := findDonation_writeDonation (writeRequest s (r1.assign "accepted" dr1))
      (d.withStatus "claimed")
    have hfd0 : findDonation (writeRequest s (r1.assign "accepted" dr1)) d.id = some d :=
      findDonation_of_mem hwf hd
    rw [show (d.withStatus "claimed").id = d.id from rfl, hfd0] at this
    exact this
  have h2mem : r2 ∈ (writeDonation (writeRequest s (r1.assign "accepted" dr1))
      (d.withStatus "claimed")).requests := by
    refine mem_updateFirst_of_not h2 ?_
    have : r2.id ≠ (r1.assign "accepted" dr1).id := fun e => hne e.symm
    simpa using this
  have hfd2 : findDonation (writeDonation (writeRequest s (r1.assign "accepted" dr1))
      (d.withStatus "claimed")) r2.donationId = some (d.withStatus "claimed") := by
    rw [hr2]; exact hfdone
  have e2 := @respond_accepted_eq _ hwf1 caller _ _ h2mem hfd2 ho dr2
  rw [e2]
  refine ⟨by rw [hfdone]; rfl, rfl, ?_, ?_⟩
  · have hstep : findRequest (writeDonation (writeRequest (writeDonation (writeRequest s
        (r1.assign "accepted" dr1)) (d.withStatus "claimed")) (r2.assign "accepted" dr2))
        ((d.withStatus "claimed").withStatus "claimed")) r1.id =
        findRequest (writeRequest s (r1.assign "accepted" dr1)) r1.id :=
      findRequest_writeRequest_ne _ (r2.assign "accepted" dr2) hne
    rw [hstep, hfr1]
    rfl
  · have hfr2 : findRequest (writeRequest (writeDonation (writeRequest s
        (r1.assign "accepted" dr1)) (d.withStatus "claimed")) (r2.assign "accepted" dr2))
        r2.id = some (r2.assign "accepted" dr2) := by
      have := findRequest_writeRequest (writeDonation (writeRequest s
        (r1.assign "accepted" dr1)) (d.withStatus "claimed")) (r2.assign "accepted" dr2)
      rw [show (r2.assign "accepted" dr2).id = r2.id from rfl,
        findRequest_of_mem hwf1 h2mem] at this
      exact this
    show Option.map Request.status (findRequest (writeRequest _ _) r2.id) = _
    rw [hfr2]
    rfl

/-! ## C20: a response other than an acceptance -/

theorem listAvailableDonations_congr (readyState : Nat) {s1 s2 : Store}
    (hd : s1.donations = s2.donations) (hu : s1.users = s2.users) :
    listAvailableDonations readyState s1 = listAvailableDonations readyState s2 := by
  have hp : populate s1 = populate s2 := by
    funext d
    simp [populate, findUser, hu]
  simp [listAvailableDonations, hd, hp]

/-- C20: when `respond` with a status other than `accepted` succeeds (200), the
donations and users are as before, so the referenced donation keeps its status and
the public listing is the same; the target request is stored with the new status
and, only when a non-empty `donorResponse` is supplied, the new `donorResponse`,
its other fields being as before; and every request with another id is as before. -/
theorem respond_other_frame (io : WriteOutcomes) (s : Store) (caller : Identity)
    (id : ObjectId) (status : String) (donorResponse : Option String) (readyState : Nat)
    (hs : status ≠ "accepted")
    (h200 : (respondWith io s caller id status donorResponse).2.status = 200) :
    (respondWith io s caller id status donorResponse).1.donations = s.donations ∧
    (respondWith io s caller id status donorResponse).1.users = s.users ∧
    (∀ k, findDonation (respondWith io s caller id status donorResponse).1 k =
      findDonation s k) ∧
    listAvailableDonations readyState (respondWith io s caller id status donorResponse).1 =
      listAvailableDonations readyState s ∧
    ∃ r, findRequest s id = some r ∧
      findRequest (respondWith io s caller id status donorResponse).1 id =
        some { r with
          status := status
          donorResponse := if truthy donorResponse then donorResponse
                           else r.donorResponse } ∧
      (∀ k, k ≠ id → findRequest (respondWith io s caller id status donorResponse).1 k =
        findRequest s k) ∧
      (∀ x : Request, x.id ≠ id →
        (x ∈ (respondWith io s caller id status donorResponse).1.requests ↔
          x ∈ s.requests)) := by
  cases h : findRequest s id with
  | none =>
    rw [respondWith_notFound io s caller id status donorResponse h] at h200
    simp at h200
  | some r =>
    cases hd : findDonation s r.donationId with
    | none =>
      rw [respondWith_noDonation io s caller id status donorResponse h hd] at h200
      simp at h200
    | some d =>
      by_cases ho : d.donorId = caller.userId
      · cases hv : (validateRequest (r.assign status donorResponse) && io.requestSave) with
        | false =>
          rw [respondWith_requestSaveFails io s caller id status donorResponse h hd ho hv]
            at h200
          simp [serverError] at h200
        | true =>
          have hid := (findRequest_some h).2
          rw [respondWith_other io s caller id status donorResponse h hd ho hv hs]
          refine ⟨rfl, rfl, fun _ => rfl, listAvailableDonations_congr readyState rfl rfl,
            r, rfl, ?_, ?_, ?_⟩
          · have := findRequest_writeRequest s (r.assign status donorResponse)
            rw [show (r.assign status donorResponse).id = r.id from rfl, hid, h] at this
            exact this
          · intro k hk
            exact findRequest_writeRequest_ne s (r.assign status donorResponse) (hid ▸ hk)
          · intro x hx
            constructor
            · intro hmem
              rcases mem_writeRequest hmem with h1 | rfl
              · exact h1
              · exact absurd hid hx
            · intro hmem
              refine mem_updateFirst_of_not hmem ?_
              have : x.id ≠ (r.assign status donorResponse).id := hid ▸ hx
              simpa using this
      · rw [respondWith_notOwner io s caller id status donorResponse h hd ho] at h200
        simp at h200

/-- C20 at `alice` rejecting `bob`'s request with a message. -/
theorem respond_other_frame_witness :
    ("rejected" ≠ "accepted" ∧
      (respond demo aliceId 3 "rejected" (some "already gone")).2.status = 200) ∧
    (respond demo aliceId 3 "rejected" (some "already gone")).1.donations = demo.donations ∧
    listAvailableDonations 1 (respond demo aliceId 3 "rejected" (some "already gone")).1 =
      listAvailableDonations 1 demo ∧
    findRequest (respond demo aliceId 3 "rejected" (some "already gone")).1 3 =
      some { breadRequest with status := "rejected", donorResponse := some "already gone" } :=
  ⟨⟨by decide, by decide⟩,
    (respond_other_frame ⟨true, true⟩ demo aliceId 3 "rejected" (some "already gone") 1
      (by decide) (by decide)).1,
    (respond_other_frame ⟨true, true⟩ demo aliceId 3 "rejected" (some "already gone") 1
      (by decide) (by decide)).2.2.2.1,
    by decide⟩

/-! ## The recipient of a stored request -/

section Recipients

theorem createRequest_cases (s : Store) (now : Nat) (caller : Identity)
    (donationId : ObjectId) (reason : String) :
    (createRequest s now caller donationId reason).1 = s ∨
    ∃ user donation, findUser s caller.userId = some user ∧ user.userType = "recipient" ∧
      (createRequest s now caller donationId reason).1 =
        insertRequest s (newRequest s.nextId now user donation reason) := by
  cases hu : findUser s caller.userId with
  | none => left; simp [createRequest, hu]
  | some user =>
    by_cases hrole : user.userType = "recipient"
    · cases hd : findDonation s donationId with
      | none => left; simp [createRequest, hu, hrole, hd]
      | some donation =>
        by_cases hav : donation.status = "available"
        · cases hv : validateRequest (newRequest s.nextId now user donation reason) with
          | false =>
            left
            simp only [createRequest, hu, hrole, hd, hav, hv]
            simp
          | true =>
            right
            refine ⟨user, donation, rfl, hrole, ?_⟩
            simp only [createRequest, hu, hrole, hd, hav, hv]
            simp
        · left; simp [createRequest, hu, hrole, hd, hav]
    · left; simp [createRequest, hu, hrole]

theorem findUser_congr {s1 s2 : Store} (h : s1.users = s2.users) (k : ObjectId) :
    findUser s1 k = findUser s2 k := by
  unfold findUser
  rw [h]

theorem findUser_register (c : Crypto) (s : Store) (now : Nat) (b : RegisterBody)
    {k : ObjectId} {u : User} (h : findUser s k = some u) :
    findUser (register c s now b).1 k = some u := by
  rcases register_users c s now b with h1 | ⟨_, v, _, h1⟩
  · rw [findUser_congr h1]; exact h
  · unfold findUser at h ⊢
    rw [h1, List.find?_append, h]
    rfl

/-- In every state the server can be in, the `recipientId` of a stored request
resolves to a user whose role is `recipient`. -/
theorem reachable_recipient (c : Crypto) {s : Store} (h : Reachable c s) :
    ∀ r ∈ s.requests, ∃ u, findUser s r.recipientId = some u ∧ u.userType = "recipient" := by
  induction h with
  | init => intro r hr; cases hr
  | @step s op _ ih =>
    intro r hr
    cases op with
    | register now b =>
      rw [step, register_requests] at hr
      obtain ⟨u, hu, hrole⟩ := ih r hr
      exact ⟨u, findUser_register c s now b hu, hrole⟩
    | login _ _ _ => exact ih r hr
    | createDonation now who b =>
      rw [step, createDonation_requests] at hr
      obtain ⟨u, hu, hrole⟩ := ih r hr
      exact ⟨u, by rw [step, findUser_congr (createDonation_users s now who b)]; exact hu,
        hrole⟩
    | listAvailableDonations _ => exact ih r hr
    | listOwnDonations _ => exact ih r hr
    | setStatus who k st =>
      rw [step, setStatus_requests] at hr
      obtain ⟨u, hu, hrole⟩ := ih r hr
      exact ⟨u, by rw [step, findUser_congr (setStatus_users s who k st)]; exact hu, hrole⟩
    | remove who k =>
      rw [step, remove_requests] at hr
      obtain ⟨u, hu, hrole⟩ := ih r hr
      exact ⟨u, by rw [step, findUser_congr (remove_users s who k)]; exact hu, hrole⟩
    | createRequest now who k reason =>
      rw [step] at hr ⊢
      rw [findUser_congr (createRequest_users s now who k reason)]
      rcases createRequest_cases s now who k reason with h1 | ⟨user, donation, hu, hrole, h1⟩
      · rw [h1] at hr; exact ih r hr
      · rw [h1] at hr
        rcases List.mem_append.mp hr with h2 | h2
        · exact ih r h2
        · rw [List.mem_singleton.mp h2]
          refine ⟨user, ?_, hrole⟩
          show findUser s user.id = some user
          rw [(findUser_some hu).2]
          exact hu
    | listOwnRequests _ => exact ih r hr
    | respond io who k st dr =>
      rw [step] at hr ⊢
      rw [findUser_congr (respondWith_users io s who k st dr)]
      rcases respondWith_store_cases io s who k st dr with
        h1 | ⟨r0, d0, hr0, _, _, _, h1⟩
      · rw [h1] at hr; exact ih r hr
      · have hmem : r ∈ (writeRequest s (r0.assign st dr)).requests := by
          rcases h1 with h1 | ⟨_, h1⟩
          · rw [h1] at hr; exact hr
          · rw [h1] at hr; exact hr
        rcases mem_writeRequest hmem with h2 | rfl
        · exact ih r h2
        · exact ih r0 (findRequest_some hr0).1

end Recipients

/-! ## C21: the requests of a deleted donation -/

section Orphans

theorem listOwnRequests_donor {s : Store} {caller : Identity} {user : User}
    (hu : findUser s caller.userId = some user) (hrole : user.userType = "donor") :
    listOwnRequests s caller =
      ⟨200, "", some (newestFirst Request.createdAt (joinOwnRequests s user.id))⟩ := by
  simp only [listOwnRequests, hu, hrole, beq_self_eq_true, if_true]
  rw [joinOwnRequests_eq]

theorem listOwnRequests_recipient {s : Store} {caller : Identity} {user : User}
    (hu : findUser s caller.userId = some user) (hrole : user.userType = "recipient") :
    listOwnRequests s caller =
      ⟨200, "", some (newestFirst Request.createdAt
        (s.requests.filter (fun r => r.recipientId == user.id)))⟩ := by
  have hne : (user.userType == "donor") = false := by rw [hrole]; decide
  simp only [listOwnRequests, hu, hne]
  simp

theorem findDonation_none_iff {s : Store} {k : ObjectId} :
    findDonation s k = none ↔ ∀ d ∈ s.donations, d.id ≠ k := by
  unfold findDonation
  rw [List.find?_eq_none]
  simp

/-- In a well-formed state, after the owner's `remove` no donation has the id. -/
theorem findDonation_remove {s : Store} (hwf : s.WF) {owner : Identity} {id : ObjectId}
    (hown : ownsDonation s owner id) : findDonation (remove s owner id).1 id = none := by
  have hex : ∃ a ∈ s.donations, (a.id == id && a.donorId == owner.userId) = true := by
    obtain ⟨d, hd, h1, h2⟩ := hown
    exact ⟨d, hd, by simp [h1, h2]⟩
  have hout : (remove s owner id).1.donations =
      s.donations.eraseP (fun d => d.id == id && d.donorId == owner.userId) := by
    cases h : s.donations.find? (fun d => d.id == id && d.donorId == owner.userId) with
    | none =>
      obtain ⟨a, ha, hpa⟩ := hex
      exact absurd hpa (List.find?_eq_none.mp h a ha)
    | some d => simp [remove, h]
  rw [findDonation_none_iff, hout]
  exact eraseP_key_gone Donation.id hwf.2.1 (fun y _ hy => by simp at hy; exact hy.1) hex

/-- The id of a donation that is not stored and is older than `nextId` is never
the id of a stored donation again. -/
theorem run_findDonation_none (c : Crypto) {s : Store} {k : ObjectId}
    (h : findDonation s k = none) (hlt : k < s.nextId) (ops : List Op) :
    findDonation (run c s ops) k = none := by
  rw [findDonation_none_iff] at h ⊢
  intro d1 hd1 hk
  obtain ⟨d0, hd0, e0⟩ := run_donation_fields c s ops hd1 (hk ▸ hlt)
  have : d0.id = d1.id := by rw [e0]; rfl
  exact h d0 hd0 (this.trans hk)

theorem remove_nextId (s : Store) (caller : Identity) (id : ObjectId) :
    (remove s caller id).1.nextId = s.nextId := by
  unfold remove
  split <;> rfl

end Orphans

/-- C21, refuted as stated: `bob`, a recipient, lists a donation, requests it
himself and deletes it; in the state the server has then reached his request is
still stored and his `listOwnRequests`, the former owner's, still returns it. -/
theorem former_owner_still_listed :
    Reachable demoCrypto (run demoCrypto Store.empty selfRequest) ∧
    (run demoCrypto Store.empty (selfRequest.take 3)).donations.map
      (fun d => (d.id, d.donorId)) = [(1, 0)] ∧
    (run demoCrypto Store.empty selfRequest).donations = [] ∧
    (run demoCrypto Store.empty selfRequest).requests.map
      (fun r => (r.id, r.donationId)) = [(2, 1)] ∧
    (listOwnRequests (run demoCrypto Store.empty selfRequest) bobFirst).payload.map
      (fun l => l.map Request.id) = some [2] :=
  ⟨reachable_run demoCrypto Reachable.init _, by decide, by decide, by decide, by decide⟩

/-- C21, amended: in a well-formed state, after the owner has removed a donation,
the requests are exactly as before; in that state and in every later one no
donation has the id, so `respond` on a request that references it answers 403 for
every caller, the former owner included; the recipient of such a request still
gets it from `listOwnRequests`; and a former owner whose role is `donor`, who got
it before, no longer gets it. -/
theorem remove_orphans_requests (c : Crypto) (s : Store) (owner : Identity) (id : ObjectId)
    (hwf : s.WF) (hown : ownsDonation s owner id) :
    (remove s owner id).1.requests = s.requests ∧
    (∀ ops, findDonation (run c (remove s owner id).1 ops) id = none) ∧
    (∀ (ops : List Op) (io : WriteOutcomes) (caller : Identity) (rid : ObjectId)
        (r : Request) (status : String) (donorResponse : Option String),
      findRequest (run c (remove s owner id).1 ops) rid = some r → r.donationId = id →
      respondWith io (run c (remove s owner id).1 ops) caller rid status donorResponse =
        (run c (remove s owner id).1 ops,
          ⟨403, "Not authorized to update this request", none⟩)) ∧
    (∀ r ∈ s.requests, r.donationId = id →
      findRequest (remove s owner id).1 r.id = some r ∧
      (∀ (recipient : Identity) (user : User), recipient.userId = r.recipientId →
        findUser s recipient.userId = some user → user.userType = "recipient" →
        ∃ l, listOwnRequests (remove s owner id).1 recipient = ⟨200, "", some l⟩ ∧ r ∈ l) ∧
      (∀ user : User, findUser s owner.userId = some user → user.userType = "donor" →
        (∃ l0, listOwnRequests s owner = ⟨200, "", some l0⟩ ∧ r ∈ l0) ∧
        ∃ l, listOwnRequests (remove s owner id).1 owner = ⟨200, "", some l⟩ ∧ r ∉ l)) := by
  have hreq := remove_requests s owner id
  have husers := remove_users s owner id
  have hwf1 : (remove s owner id).1.WF := remove_wf hwf owner id
  have hgone := findDonation_remove hwf hown
  have hlt : id < (remove s owner id).1.nextId := by
    rw [remove_nextId]
    obtain ⟨d, hd, h1, _⟩ := hown
    exact h1 ▸ hwf.2.2.2.2.1 d hd
  have hlater : ∀ ops, findDonation (run c (remove s owner id).1 ops) id = none :=
    fun ops => run_findDonation_none c hgone hlt ops
  have hfu : ∀ k, findUser (remove s owner id).1 k = findUser s k := by
    intro k
    unfold findUser
    rw [husers]
  refine ⟨hreq, hlater, ?_, ?_⟩
  · intro ops io caller rid r status donorResponse hr hid
    exact respondWith_noDonation io _ caller rid status donorResponse hr (hid ▸ hlater ops)
  · intro r hr hid
    have hr1 : r ∈ (remove s owner id).1.requests := hreq ▸ hr
    refine ⟨findRequest_of_mem hwf1 hr1, ?_, ?_⟩
    · intro recipient user hrec hu hrole
      have hu1 : findUser (remove s owner id).1 recipient.userId = some user := by
        rw [hfu]; exact hu
      refine ⟨_, listOwnRequests_recipient hu1 hrole, ?_⟩
      rw [mem_newestFirst, hreq, List.mem_filter]
      refine ⟨hr, ?_⟩
      have : r.recipientId = user.id := by rw [(findUser_some hu).2, hrec]
      simpa using this
    · intro user hu hrole
      have huid := (findUser_some hu).2
      have hu1 : findUser (remove s owner id).1 owner.userId = some user := by
        rw [hfu]; exact hu
      constructor
      · refine ⟨_, listOwnRequests_donor hu hrole, ?_⟩
        rw [mem_newestFirst]
        unfold joinOwnRequests
        rw [List.mem_filter]
        refine ⟨hr, ?_⟩
        obtain ⟨d, hd, h1, h2⟩ := hown
        rw [List.any_eq_true]
        exact ⟨d, hd, by simp [h1, hid, h2, huid]⟩
      · refine ⟨_, listOwnRequests_donor hu1 hrole, ?_⟩
        rw [mem_newestFirst]
        unfold joinOwnRequests
        rw [List.mem_filter]
        rintro ⟨_, hany⟩
        rw [List.any_eq_true] at hany
        obtain ⟨d, hd, hd2⟩ := hany
        have hdid : d.id = r.donationId := by
          simp only [Bool.and_eq_true, beq_iff_eq] at hd2
          exact hd2.1
        exact findDonation_none_iff.mp hgone d hd (hdid.trans hid)

/-- C21 amended, at `alice`, a donor, deleting the bread that `bob` has requested. -/
theorem remove_orphans_requests_witness :
    (demo.WF ∧ ownsDonation demo aliceId 2) ∧
    (remove demo aliceId 2).1.requests = demo.requests ∧
    respondWith ⟨true, true⟩ (remove demo aliceId 2).1 aliceId 3 "accepted" none =
      ((remove demo aliceId 2).1, ⟨403, "Not authorized to update this request", none⟩) ∧
    (∃ l, listOwnRequests (remove demo aliceId 2).1 bobId = ⟨200, "", some l⟩ ∧
      breadRequest ∈ l) ∧
    (∃ l, listOwnRequests (remove demo aliceId 2).1 aliceId = ⟨200, "", some l⟩ ∧
      breadRequest ∉ l) :=
  ⟨⟨by decide, bread, by decide, by decide, by decide⟩,
    (remove_orphans_requests demoCrypto demo aliceId 2 (by decide)
      ⟨bread, by decide, by decide, by decide⟩).1,
    (remove_orphans_requests demoCrypto demo aliceId 2 (by decide)
      ⟨bread, by decide, by decide, by decide⟩).2.2.1 [] ⟨true, true⟩ aliceId 3 breadRequest
      "accepted" none (by decide) (by decide),
    ((remove_orphans_requests demoCrypto demo aliceId 2 (by decide)
      ⟨bread, by decide, by decide, by decide⟩).2.2.2 breadRequest (by decide)
      (by decide)).2.1 bobId bob (by decide) (by decide) (by decide),
    (((remove_orphans_requests demoCrypto demo aliceId 2 (by decide)
      ⟨bread, by decide, by decide, by decide⟩).2.2.2 breadRequest (by decide)
      (by decide)).2.2 alice (by decide) (by decide)).2⟩

end FoodShare
